import Mathlib

set_option maxHeartbeats 2000000

/-
  Verification development for the graphql_query_optimizer repository.

  The repository contains two components over a shared GraphQL type graph:
    * a selection-tree generator (src/createSelectionObject.js, recursive
      recurseFields / handleInterface / handleUnion; and a second variant
      src/createSelectionObject.ts built on the SDL AST with a schema cache
      and createTypeSelection), and
    * a query serializer (src/buildQuery.ts, buildFieldSelections and
      buildQuery).

  The SDL parser (the graphql package) is an external collaborator: it is
  modelled as a parameter producing a type graph (Schema below), and the
  relevant facts of its object model are embedded directly: object and
  interface types expose a field map (getFields), union types do not, and
  wrapper types (list, non-null) chain down to a named type.

  JavaScript runtime details that the source code relies on are modelled
  explicitly: selection values are arbitrary JS values (JValue below, with
  null among them, since typeof null evaluates to the string "object" and
  Object.keys(null) throws a TypeError), and object iteration follows
  insertion order, modelled by association lists.
-/

/- ===== Type graph (the view of a schema built by graphql buildSchema) ===== -/

/-- A GraphQL type reference: a chain of list / non-null wrappers ending in a
named type, as carried by a field declaration. -/
inductive TypeRef where
  | named (name : String)
  | listOf (t : TypeRef)
  | nonNull (t : TypeRef)
deriving Repr

/-- Unwrap list / non-null wrappers down to the named type, mirroring the
source loop `while (fieldType.ofType) fieldType = fieldType.ofType`. -/
def TypeRef.unwrapName : TypeRef → String
  | .named n => n
  | .listOf t => t.unwrapName
  | .nonNull t => t.unwrapName

/-- The kind of a named GraphQL type. -/
inductive TKind where
  | object
  | interface
  | union
  | scalar
  | enum
deriving Repr, DecidableEq

/-- A named type of the type graph: its kind, its field map (meaningful for
object and interface kinds, which expose getFields in graphql-js), and its
possible types (union members, or implementing types for an interface, as
returned by schema.getPossibleTypes). -/
structure GType where
  name : String
  kind : TKind
  fields : List (String × TypeRef)
  possibleTypes : List String
deriving Repr

/-- In graphql-js, object types and interface types expose a getFields
method; union, scalar and enum types do not. -/
def GType.hasGetFields (t : GType) : Bool :=
  t.kind = TKind.object || t.kind = TKind.interface

/-- GraphQLInterfaceType instances carry an astNode of kind
InterfaceTypeDefinition; this is what isInterfaceType in the source checks. -/
def GType.isInterfaceKind (t : GType) : Bool := t.kind = TKind.interface

/-- GraphQLUnionType instances carry an astNode of kind UnionTypeDefinition;
this is what isUnionType in the source checks. -/
def GType.isUnionKind (t : GType) : Bool := t.kind = TKind.union

/-- The type graph produced by the schema collaborator: all named types plus
the names of the root operation types. -/
structure Schema where
  types : List GType
  queryType : Option String
  mutationType : Option String
  subscriptionType : Option String
deriving Repr

/-- schema.getType(name). -/
def Schema.getType (s : Schema) (n : String) : Option GType :=
  s.types.find? (fun t => t.name == n)

/-- schema.getQueryType() resolved to a type descriptor. -/
def Schema.getQueryType (s : Schema) : Option GType :=
  s.queryType.bind s.getType

/-- schema.getMutationType() resolved to a type descriptor. -/
def Schema.getMutationType (s : Schema) : Option GType :=
  s.mutationType.bind s.getType

/-- schema.getSubscriptionType() resolved to a type descriptor. -/
def Schema.getSubscriptionType (s : Schema) : Option GType :=
  s.subscriptionType.bind s.getType

/- ===== JS values used as selection trees by the serializer ===== -/

/-- A JavaScript value as passed to the serializer: null, a boolean, a
string, or an object whose own enumerable keys are listed in insertion
order. This covers every shape the source code distinguishes
(`!x`, `typeof x !== 'object'`, `=== true`, Object.keys). -/
inductive JValue where
  | vnull
  | vb (b : Bool)
  | vstr (s : String)
  | vobj (entries : List (String × JValue))
deriving Repr

/-- Property lookup on a JS object (first binding wins; JS objects have
unique keys, so on real inputs this is exact). -/
def jlookup (entries : List (String × JValue)) (k : String) : Option JValue :=
  match entries with
  | [] => none
  | (k', v) :: rest => if k' = k then some v else jlookup rest k

/-- True when the value satisfies the JS test `x === true`. -/
def JValue.isTrue : JValue → Bool
  | .vb true => true
  | _ => false

/-- True when the value satisfies the JS test `typeof x === 'object'`.
Note that typeof null evaluates to the string "object" in JavaScript. -/
def JValue.typeofObject : JValue → Bool
  | .vnull => true
  | .vobj _ => true
  | _ => false

/- ===== The serializer: buildFieldSelections (src/buildQuery.ts) ===== -/

/-- The TypeError message JavaScript raises from Object.keys(null). -/
def nullKeysError : String := "Cannot convert undefined or null to object"

/-- Kernel-reducible equivalent of startsWith for the fragment key test
fieldName.startsWith(on_). -/
def startsWithOn (k : String) : Bool :=
  match k.data with
  | 'o' :: 'n' :: '_' :: _ => true
  | _ => false

/-- Kernel-reducible equivalent of fieldName.substring(3), used to strip the
fragment key marker. -/
def dropOn (k : String) : String := String.mk (k.data.drop 3)

mutual

/-- Embedding of buildFieldSelections(selectionObject, graphQLType, schema)
from src/buildQuery.ts. The graphQLType argument is Option-valued to model a
null or undefined type argument. The result is Except because the source
can raise a TypeError (Object.keys on a null field value). -/
def buildFieldSelections (sel : JValue) (gt : Option GType) (schema : Schema) :
    Except String String :=
  match sel with
  | .vobj entries =>
    match gt with
    | some ty =>
      if ty.hasGetFields then
        -- Handle empty selection objects
        if entries.isEmpty then Except.ok ""
        else do
          let sels ← bfsEntries entries ty schema
          Except.ok (String.intercalate " " sels)
      else Except.ok ""                -- !graphQLType.getFields
    | none => Except.ok ""             -- !graphQLType
  | _ => Except.ok ""                  -- !selectionObject or not an object
      termination_by sizeOf sel

/-- The main for-in loop of buildFieldSelections, producing the selections
array in iteration order; each iteration contributes the zero or one items
computed by bfsEntryItems. -/
def bfsEntries (entries : List (String × JValue)) (ty : GType) (schema : Schema) :
    Except String (List String) :=
  match entries with
  | [] => Except.ok []
  | (fieldName, isSelected) :: rest => do
    let items ← bfsEntryItems fieldName isSelected ty schema
    let r ← bfsEntries rest ty schema
    Except.ok (items ++ r)
      termination_by sizeOf entries

/-- One iteration of the for-in loop of buildFieldSelections: the
contribution (zero or one selection strings) of a single selection entry,
or the TypeError the iteration raises. -/
def bfsEntryItems (fieldName : String) (isSelected : JValue) (ty : GType)
    (schema : Schema) : Except String (List String) :=
  -- Skip special fields like on_TypeName for interfaces/unions
  if startsWithOn fieldName then Except.ok []
  -- Handle __typename field (does not exist in schema fields)
  else if fieldName = "__typename" then
    if isSelected.isTrue then Except.ok ["__typename"] else Except.ok []
  else
    match ty.fields.lookup fieldName with
    | none => Except.ok []         -- selection key absent from schema: skip
    | some fieldRef =>
      -- Unwrap to get the core type (the unwrapped object is the schema type)
      let fieldType := schema.getType fieldRef.unwrapName
      match isSelected with
      | .vobj inner =>
        if inner.isEmpty then Except.ok [fieldName ++ " \x7b\x7d"]
        else if inner.any (fun p => startsWithOn p.1) then do
          -- Process interface/union fields with inline fragments
          let tn := if (jlookup inner "__typename").elim false JValue.isTrue then
                      ["__typename"] else []
          let regs ← bfsRegular inner fieldType schema
          let frs ← bfsFragments inner schema
          let allSel := String.intercalate " "
            (((tn ++ regs) ++ frs).filter (fun s => s ≠ ""))
          Except.ok [if allSel ≠ "" then
                       fieldName ++ " \x7b " ++ allSel ++ " \x7d"
                     else fieldName ++ " \x7b\x7d"]
        else do
          -- Regular object field
          let subSel ← buildFieldSelections (JValue.vobj inner) fieldType schema
          Except.ok [if subSel ≠ "" then
                       fieldName ++ " \x7b " ++ subSel ++ " \x7d"
                     else fieldName ++ " \x7b\x7d"]   -- inner is non-empty here
      | .vnull =>
        -- typeof null === 'object', so the source reaches Object.keys(null)
        Except.error nullKeysError
      | _ =>
        if isSelected.isTrue then Except.ok [fieldName]
        else Except.ok []          -- falsy or non-object, non-true: skip
      termination_by sizeOf isSelected + 1

/-- The loop over non-fragment keys of an inline-fragment-bearing subtree
(regular fields common to the interface or union). -/
def bfsRegular (inner : List (String × JValue)) (fieldType : Option GType)
    (schema : Schema) : Except String (List String) :=
  match inner with
  | [] => Except.ok []
  | (subFieldName, v) :: rest =>
    if startsWithOn subFieldName || subFieldName = "__typename" then
      bfsRegular rest fieldType schema
    else
      -- the field should exist on the interface type (getFields guarded)
      let subField := match fieldType with
        | some ft => if ft.hasGetFields then ft.fields.lookup subFieldName else none
        | none => none
      match subField with
      | none => bfsRegular rest fieldType schema
      | some subRef =>
        if v.typeofObject then do
          let subSel ← buildFieldSelections v (schema.getType subRef.unwrapName) schema
          let r ← bfsRegular rest fieldType schema
          if subSel ≠ "" then
            Except.ok ((subFieldName ++ " \x7b " ++ subSel ++ " \x7d") :: r)
          else Except.ok r
        else if v.isTrue then do
          let r ← bfsRegular rest fieldType schema
          Except.ok (subFieldName :: r)
        else bfsRegular rest fieldType schema
      termination_by sizeOf inner

/-- The loop over fragment keys on_<Name> of an inline-fragment-bearing
subtree, emitting inline fragments. -/
def bfsFragments (inner : List (String × JValue)) (schema : Schema) :
    Except String (List String) :=
  match inner with
  | [] => Except.ok []
  | (subFieldName, v) :: rest =>
    if startsWithOn subFieldName then
      let typeName := dropOn subFieldName
      match schema.getType typeName with
      | some typeObj => do
        let fragSel ← buildFieldSelections v (some typeObj) schema
        let r ← bfsFragments rest schema
        if fragSel ≠ "" then
          Except.ok (("... on " ++ typeName ++ " \x7b " ++ fragSel ++ " \x7d") :: r)
        else Except.ok r
      | none => bfsFragments rest schema
    else bfsFragments rest schema
      termination_by sizeOf inner

end

/- ===== buildQuery (src/buildQuery.ts) ===== -/

/-- Options for buildQuery; absent members model absent JS properties. -/
structure BuildQueryOptions where
  operationType : Option String
  operationName : Option String

/-- Default (empty) options object. -/
def defaultBQOptions : BuildQueryOptions := BuildQueryOptions.mk none none

/-- JS truthy-or-default: options.operationType or the string query. -/
def effectiveOperationType (opts : BuildQueryOptions) : String :=
  match opts.operationType with
  | none => "query"
  | some s => if s = "" then "query" else s

/-- Embedding of buildQuery(schemaSDL, selectionObject, options) from
src/buildQuery.ts. The external buildSchema collaborator is passed as the
parameter buildSchemaF; the schemaSDL argument is a JS value so that the
input-shape guard (non-string, falsy) is modelled exactly. -/
def buildQuery (buildSchemaF : String → Except String Schema)
    (schemaSDL : JValue) (selectionObject : JValue)
    (opts : BuildQueryOptions) : Except String String :=
  match schemaSDL with
  | .vstr s =>
    if s = "" then Except.error "Schema must be a valid SDL string"
    else
      match selectionObject with
      | .vobj _ => do
        let schema ← buildSchemaF s
        let opType := effectiveOperationType opts
        let rootName :=
          if opType = "query" then some schema.queryType
          else if opType = "mutation" then some schema.mutationType
          else if opType = "subscription" then some schema.subscriptionType
          else none
        match rootName with
        | none => Except.error ("Unsupported operation type: " ++ opType)
        | some rn =>
          match rn.bind schema.getType with
          | none => Except.error ("No " ++ opType ++ " type found in schema.")
          | some rootType => do
            let fieldsString ← buildFieldSelections selectionObject (some rootType) schema
            let operationNameStr :=
              match opts.operationName with
              | none => ""
              | some nm => if nm = "" then "" else " " ++ nm
            if fieldsString = "" then
              Except.ok (opType ++ operationNameStr ++ " \x7b\x7d")
            else
              Except.ok (opType ++ operationNameStr ++ " \x7b\n  " ++ fieldsString ++ "\n\x7d")
      | _ => Except.error "Selection object must be a valid object"
  | .vnull => Except.error "Schema must be a valid SDL string"
  | .vb _ => Except.error "Schema must be a valid SDL string"
  | .vobj _ => Except.error "Schema must be a valid SDL string"

/-- Whitespace characters for the normalization used in comparisons. -/
def isWsChar (c : Char) : Bool :=
  c = ' ' || c = '\n' || c = '\t' || c = '\r'

/-- Split a character list on whitespace runs into non-empty words. -/
def splitWsAux : List Char → List Char → List String
  | [], acc => if acc.isEmpty then [] else [String.mk acc.reverse]
  | c :: cs, acc =>
    if isWsChar c then
      (if acc.isEmpty then splitWsAux cs [] else String.mk acc.reverse :: splitWsAux cs [])
    else splitWsAux cs (c :: acc)

/-- Collapse every run of whitespace to a single space and trim, the
whitespace-insensitive comparison used by the repository tests. -/
def normWs (s : String) : String :=
  String.intercalate " " (splitWsAux s.data [])

/- ===== Selection trees produced by the generators ===== -/

/-- A generated selection tree: boolean leaves, nested nodes, or the
self-alias the TS generator creates with selection[on_T] = selection
(a reference cycle in JavaScript, marked here as selfRef). -/
inductive Sel where
  | leaf (b : Bool)
  | node (entries : List (String × Sel))
  | selfRef
deriving Repr

/-- Property lookup on a generated selection node entry list. -/
def slookup (entries : List (String × Sel)) (k : String) : Option Sel :=
  match entries with
  | [] => none
  | (k', v) :: rest => if k' = k then some v else slookup rest k

/-- The keys of a generated selection node, in insertion order. -/
def selKeys : Sel → List String
  | .node entries => entries.map Prod.fst
  | _ => []

/-- Boolean membership in a list of names, mirroring Set.has. -/
def inList (x : String) (v : List String) : Bool :=
  match v with
  | [] => false
  | y :: r => if y = x then true else inList x r

def inList_iff_mem (x : String) (v : List String) :
    inList x v = true ↔ x ∈ v := by
  induction v with
  | nil => simp [inList]
  | cons y r ih =>
    simp only [inList, List.mem_cons]
    by_cases h : y = x
    · simp [h]
    · rw [if_neg h, ih]
      constructor
      · exact Or.inr
      · intro hm
        cases hm with
        | inl hxy => exact absurd hxy.symm h
        | inr hr => exact hr

/-- Number of schema type names not yet in the visited set; the quantity that
shrinks on every descent of the generator, bounding the recursion. -/
def unvisited (schema : Schema) (visited : List String) : Nat :=
  ((schema.types.map GType.name).filter (fun n => ! inList n visited)).length

def length_filter_le_of_imp (p q : String → Bool) (l : List String)
    (h : ∀ n, p n = true → q n = true) :
    (l.filter p).length ≤ (l.filter q).length := by
  induction l with
  | nil => simp
  | cons a l ih =>
    by_cases hp : p a = true
    · simp [List.filter, hp, h a hp]
      omega
    · simp only [List.filter]
      cases hq : q a <;> simp [hp] <;> omega

def filter_cons_visited_lt (names : List String) (v : List String) (x : String)
    (hx : x ∈ names) (hv : x ∉ v) :
    (names.filter (fun n => ! inList n (x :: v))).length <
      (names.filter (fun n => ! inList n v)).length := by
  induction names with
  | nil => cases hx
  | cons a ns ih =>
    have himp : ∀ n, (! inList n (x :: v)) = true → (! inList n v) = true := by
      intro n hn
      simp only [Bool.not_eq_true'] at hn ⊢
      cases hinl : inList n v
      · rfl
      · exfalso
        have : inList n (x :: v) = true := by
          simp only [inList]
          by_cases hxx : x = n
          · simp [hxx]
          · simp [hxx, hinl]
        rw [this] at hn
        cases hn
    by_cases hax : a = x
    · subst hax
      have h1 : inList a (a :: v) = true := by simp [inList]
      have h2 : inList a v = false := by
        cases h : inList a v
        · rfl
        · exact absurd ((inList_iff_mem a v).mp h) hv
      simp only [List.filter, h1, h2, Bool.not_true, Bool.not_false]
      have := length_filter_le_of_imp (fun n => ! inList n (a :: v))
        (fun n => ! inList n v) ns himp
      simp only [List.length_cons]
      omega
    · have hx' : x ∈ ns := by
        cases hx with
        | head => exact absurd rfl hax
        | tail _ h => exact h
      have heq : inList a (x :: v) = inList a v := by
        simp only [inList]
        by_cases hxa : x = a
        · exact absurd hxa.symm hax
        · simp [hxa]
      cases hav : inList a v <;>
        simp only [List.filter, heq, hav, Bool.not_true, Bool.not_false]
      · simpa using Nat.succ_lt_succ (ih hx')
      · exact ih hx'

def unvisited_getType_lt (schema : Schema) (n : String) (ft : GType)
    (visited : List String) (h1 : schema.getType n = some ft)
    (h2 : ¬ inList ft.name visited = true) :
    unvisited schema (ft.name :: visited) < unvisited schema visited := by
  have hmem : ft ∈ schema.types := List.mem_of_find?_eq_some h1
  have hname : ft.name ∈ schema.types.map GType.name := List.mem_map_of_mem _ hmem
  have hnv : ft.name ∉ visited := fun hc => h2 ((inList_iff_mem _ _).mpr hc)
  exact filter_cons_visited_lt _ _ _ hname hnv

/- ===== The JS generator (src/createSelectionObject.js) ===== -/

/-- Options recognized by the generators. -/
structure SelOptions where
  includeTypename : Bool

/-- Shallow field set of a type: every declared field mapped to false, what
recurseFields returns for a type already in the visited set. -/
def shallowFields (t : GType) : Sel :=
  Sel.node (t.fields.map (fun p => (p.1, Sel.leaf false)))

mutual

/-- The part of recurseFields (src/createSelectionObject.js) that runs after
the visited check: the type name has been added to the visited set and the
field loop builds the result. Calls back into the full recurseFields entry
(visited check inlined) for each field type. -/
def recurseBody (t : GType) (schema : Schema) (opts : SelOptions)
    (visited : List String) : Sel :=
  if t.hasGetFields then
    Sel.node (recurseFieldList t.fields schema opts visited)
  else Sel.node []
  termination_by (unvisited schema visited, 3, 0)

/-- The loop over the fields of the current type in recurseFields. -/
def recurseFieldList (fields : List (String × TypeRef)) (schema : Schema)
    (opts : SelOptions) (visited : List String) : List (String × Sel) :=
  match fields with
  | [] => []
  | (fname, tref) :: rest =>
    (fname, recurseFieldValue tref schema opts visited) ::
      recurseFieldList rest schema opts visited
  termination_by (unvisited schema visited, 2, fields.length + 1)

/-- The per-field dispatch of recurseFields: unwrap the declared type, then
recurse for types with getFields, delegate interfaces and unions to their
handlers, and default to a false leaf for scalars and enums. In graphql-js
both object and interface types expose getFields, so the isInterfaceType
branch below is unreachable (dead code in the source as well). -/
def recurseFieldValue (tref : TypeRef) (schema : Schema) (opts : SelOptions)
    (visited : List String) : Sel :=
  match h : schema.getType tref.unwrapName with
  | none => Sel.leaf false
  | some ft =>
    if ft.hasGetFields then
      -- recurseFields(fieldType, schema, options, new Set(visitedTypes))
      if ft.name = "" then Sel.node []
      else if inList ft.name visited then shallowFields ft
      else recurseBody ft schema opts (ft.name :: visited)
    else if ft.isInterfaceKind then handleInterface ft schema opts visited
    else if ft.isUnionKind then handleUnion ft schema opts visited
    else Sel.leaf false
  termination_by (unvisited schema visited, 2, 0)
  decreasing_by
    all_goals
      first
        | decreasing_tactic
        | (have hlt := unvisited_getType_lt _ _ _ _ (by assumption) (by assumption)
           decreasing_tactic)

/-- Embedding of handleInterface (src/createSelectionObject.js): __typename
when requested, the interface-declared fields, then one on_<Impl> entry per
implementing type, each recursed with a fresh copy of the visited set. -/
def handleInterface (it : GType) (schema : Schema) (opts : SelOptions)
    (visited : List String) : Sel :=
  Sel.node (
    (if opts.includeTypename then [("__typename", Sel.leaf false)] else [])
    ++ (if it.hasGetFields then ifaceFieldList it.fields schema opts visited else [])
    ++ possibleList it.possibleTypes schema opts visited)
  termination_by (unvisited schema visited, 1, 0)

/-- The interface-field loop of handleInterface: recurse for field types with
getFields, otherwise a false leaf. -/
def ifaceFieldList (fields : List (String × TypeRef)) (schema : Schema)
    (opts : SelOptions) (visited : List String) : List (String × Sel) :=
  match fields with
  | [] => []
  | (fname, tref) :: rest =>
    let value :=
      match h : schema.getType tref.unwrapName with
      | none => Sel.leaf false
      | some ft =>
        if ft.hasGetFields then
          if ft.name = "" then Sel.node []
          else if inList ft.name visited then shallowFields ft
          else recurseBody ft schema opts (ft.name :: visited)
        else Sel.leaf false
    (fname, value) :: ifaceFieldList rest schema opts visited
  termination_by (unvisited schema visited, 0, fields.length + 1)
  decreasing_by
    all_goals
      first
        | decreasing_tactic
        | (have hlt := unvisited_getType_lt _ _ _ _ (by assumption) (by assumption)
           decreasing_tactic)

/-- Embedding of handleUnion (src/createSelectionObject.js): __typename when
requested, then one on_<Member> entry per union member, each recursed with a
fresh copy of the visited set. -/
def handleUnion (ut : GType) (schema : Schema) (opts : SelOptions)
    (visited : List String) : Sel :=
  Sel.node (
    (if opts.includeTypename then [("__typename", Sel.leaf false)] else [])
    ++ possibleList ut.possibleTypes schema opts visited)
  termination_by (unvisited schema visited, 1, 0)

/-- The loop over possible types (interface implementations or union
members), emitting on_<Name> entries via recurseFields with a copied visited
set. -/
def possibleList (members : List String) (schema : Schema) (opts : SelOptions)
    (visited : List String) : List (String × Sel) :=
  match members with
  | [] => []
  | m :: rest =>
    let value :=
      match h : schema.getType m with
      | none => Sel.node []
      | some mt =>
        if mt.name = "" then Sel.node []
        else if inList mt.name visited then
          (if mt.hasGetFields then shallowFields mt else Sel.node [])
        else recurseBody mt schema opts (mt.name :: visited)
    ("on_" ++ m, value) :: possibleList rest schema opts visited
  termination_by (unvisited schema visited, 0, members.length + 1)
  decreasing_by
    all_goals
      first
        | decreasing_tactic
        | (have hlt := unvisited_getType_lt _ _ _ _ (by assumption) (by assumption)
           decreasing_tactic)

end

/-- Embedding of the full recurseFields entry point of
src/createSelectionObject.js, including the null/name guard and the
visited-set early return. -/
def recurseFields (gt : Option GType) (schema : Schema) (opts : SelOptions)
    (visited : List String) : Sel :=
  match gt with
  | none => Sel.node []
  | some t =>
    if t.name = "" then Sel.node []
    else if inList t.name visited then
      (if t.hasGetFields then shallowFields t else Sel.node [])
    else recurseBody t schema opts (t.name :: visited)

/-- Embedding of createSelectionObject (src/createSelectionObject.js): build
the schema through the external collaborator, require a query root, then
recurse from it with an empty visited set. -/
def createSelectionObjectJS (buildSchemaF : String → Except String Schema)
    (sdl : String) (opts : SelOptions) : Except String Sel := do
  let schema ← buildSchemaF sdl
  match schema.getQueryType with
  | none => Except.error "No query type found in schema."
  | some queryType => Except.ok (recurseFields (some queryType) schema opts [])

/- ===== The TS generator (src/createSelectionObject.ts) ===== -/

/-- Per-type information collected by the two visit passes of
createSelectionObject in src/createSelectionObject.ts. -/
structure TypeInfo where
  fields : List (String × TypeRef)
  interfaces : List String
  possibleTypes : List String
  enumValues : List String
deriving Repr

/-- The type map: a JS object keyed by type name (insertion order kept,
later assignments overwrite). -/
abbrev TypeMap := List (String × TypeInfo)

/-- An SDL definition node as delivered by the external graphql parse
collaborator, carrying exactly the parts the visitors read. -/
inductive AstDef where
  | schemaDef (queryName : Option String)
  | objectDef (name : String) (interfaces : List String)
      (fields : List (String × TypeRef))
  | interfaceDef (name : String) (fields : List (String × TypeRef))
  | unionDef (name : String) (members : List String)
  | enumDef (name : String) (values : List String)
  | otherDef
deriving Repr

/-- A parsed SDL document: its definition list in document order. -/
abbrev AstDoc := List AstDef

/-- The filter used for the at-least-one-type-definition check. -/
def isTypeDefinition : AstDef → Bool
  | .objectDef _ _ _ => true
  | .interfaceDef _ _ => true
  | .unionDef _ _ => true
  | .enumDef _ _ => true
  | _ => false

/-- JS object property assignment: overwrite in place when the key exists,
append otherwise. -/
def upsertTM (m : TypeMap) (k : String) (v : TypeInfo) : TypeMap :=
  if (List.any m (fun p => p.1 == k)) then
    List.map (fun p => if p.1 == k then (k, v) else p) m
  else m ++ [(k, v)]

/-- One step of the first visit pass (type collection and query-type-name
detection) of createSelectionObject in src/createSelectionObject.ts. -/
def pass1Step (st : TypeMap × Option String) (d : AstDef) : TypeMap × Option String :=
  match d with
  | .schemaDef q =>
    (match q with
     | some n => (st.1, some n)
     | none => st)
  | .objectDef n _ fs =>
    (upsertTM st.1 n (TypeInfo.mk fs [] [] []),
     if n = "Query" then some "Query" else st.2)
  | .interfaceDef n fs => (upsertTM st.1 n (TypeInfo.mk fs [] [] []), st.2)
  | .unionDef n ms => (upsertTM st.1 n (TypeInfo.mk [] [] ms []), st.2)
  | .enumDef n vs => (upsertTM st.1 n (TypeInfo.mk [] [] [] vs), st.2)
  | .otherDef => st

/-- First visit pass over the document. -/
def pass1 (doc : AstDoc) : TypeMap × Option String :=
  List.foldl pass1Step ([], none) doc

/-- The internal errors of createSelectionObject
(src/createSelectionObject.ts), before the catch-block rewriting. -/
inductive CsoErr where
  | emptySDL
  | syntaxError (msg : String)
  | noTypeDefs
  | invalidFieldType (tname fname : String)
  | typeNotFound (tname whereT whereF : String)
  | noQueryType
  | queryTypeNotFound (q : String)
deriving Repr, DecidableEq

/-- The message each error surfaces with after the catch-block filtering of
createSelectionObject: messages matching the pass-through substrings are
kept, syntax errors are prefixed, everything else collapses to the generic
invalid-schema message. -/
def CsoErr.message : CsoErr → String
  | .emptySDL => "Schema SDL must be provided"
  | .syntaxError m => "Invalid schema syntax: " ++ m
  | .noTypeDefs => "Schema must contain at least one type definition"
  | .invalidFieldType _ _ => "Invalid schema provided"
  | .typeNotFound t wt wf =>
      "Type \"" ++ t ++ "\" not found in schema (referenced in " ++ wt ++ "." ++ wf ++ ")"
  | .noQueryType =>
      "No query type found in schema. Add a \"Query\" type or specify the query type in schema definition."
  | .queryTypeNotFound q => "Query type \"" ++ q ++ "\" not found in schema."

/-- The built-in scalar names accepted without a schema definition. -/
def isBuiltInType (n : String) : Bool :=
  inList n ["ID", "String", "Int", "Float", "Boolean"]

/-- Field-type validation of the second visit pass. -/
def validateFields (tname : String) (fs : List (String × TypeRef)) (tm : TypeMap) :
    Except CsoErr Unit :=
  match fs with
  | [] => Except.ok ()
  | (fname, tr) :: rest =>
    let namedType := tr.unwrapName
    if namedType = "" then Except.error (CsoErr.invalidFieldType tname fname)
    else if (List.lookup namedType tm).isNone && ! isBuiltInType namedType then
      Except.error (CsoErr.typeNotFound namedType tname fname)
    else validateFields tname rest tm

/-- Record the interface list of an object type on its type-map entry. -/
def setInterfaces (tm : TypeMap) (n : String) (ifaces : List String) : TypeMap :=
  List.map (fun p => if p.1 == n then (p.1, TypeInfo.mk p.2.fields ifaces p.2.possibleTypes p.2.enumValues) else p) tm

/-- Second visit pass: interface recording and field-type validation, in
document order. -/
def pass2 (doc : AstDoc) (tm : TypeMap) : Except CsoErr TypeMap :=
  match doc with
  | [] => Except.ok tm
  | .objectDef n ifaces fs :: rest => do
    let tm2 := if ifaces.isEmpty then tm else setInterfaces tm n ifaces
    let _ ← validateFields n fs tm2
    pass2 rest tm2
  | _ :: rest => pass2 rest tm

/-- The hard-coded circular-reference placeholder of createTypeSelection
(src/createSelectionObject.ts lines 193-199): a fixed set of basic field
names, not the fields declared by the revisited type. -/
def ctsStub : Sel :=
  Sel.node [("id", Sel.leaf false), ("name", Sel.leaf false),
            ("email", Sel.leaf false), ("title", Sel.leaf false),
            ("content", Sel.leaf false)]

/-- JS object property assignment on a selection entry list. -/
def addKey (m : List (String × Sel)) (k : String) (v : Sel) : List (String × Sel) :=
  if (List.any m (fun p => p.1 == k)) then
    List.map (fun p => if p.1 == k then (k, v) else p) m
  else m ++ [(k, v)]

/-- The per-field dispatch of createTypeSelection: circular references get
the fixed placeholder, types present in the map recurse (their fields
property is always an object, hence truthy even when empty), everything
else becomes a false leaf. The recursive call is supplied as rec. -/
def ctsFieldValue (recF : String → List String → Sel) (tr : TypeRef)
    (tm : TypeMap) (visited : List String) : Sel :=
  let namedType := tr.unwrapName
  if inList namedType visited then ctsStub
  else
    match List.lookup namedType tm with
    | some _ => recF namedType (namedType :: visited)
    | none => Sel.leaf false

/-- The Object.entries(typeInfo.fields) loop of createTypeSelection; the
visited set is restored after each field (add of an absent name followed by
delete), so it is passed unchanged along the loop. -/
def ctsFields (recF : String → List String → Sel) (fields : List (String × TypeRef))
    (tm : TypeMap) (visited : List String) (acc : List (String × Sel)) :
    List (String × Sel) :=
  match fields with
  | [] => acc
  | (fname, tr) :: rest =>
    ctsFields recF rest tm visited (addKey acc fname (ctsFieldValue recF tr tm visited))

/-- The union-fragment loop of createTypeSelection, threading the mutable
visited set: add the member (no-op when present), recurse, then delete it
(which removes it even when it was present before the loop step). -/
def ctsUnions (recF : String → List String → Sel) (members : List String)
    (visited : List String) (acc : List (String × Sel)) :
    List (String × Sel) × List String :=
  match members with
  | [] => (acc, visited)
  | pt :: rest =>
    let v1 := if inList pt visited then visited else pt :: visited
    let child := recF pt v1
    let v2 := List.erase v1 pt
    ctsUnions recF rest v2 (addKey acc ("on_" ++ pt) child)

/-- Embedding of createTypeSelection (src/createSelectionObject.ts).
Fuel bounds the recursion depth: the source function is not structurally
terminating (its union branch recurses without a visited-set guard, so a
self-referential union makes the source overflow the JS stack); out of fuel
the embedding returns an empty node, a case never reached on schemas on
which the source returns. -/
def ctsFuel : Nat → String → TypeMap → SelOptions → List String → Sel
  | 0, _, _, _, _ => Sel.node []
  | fuel + 1, typeName, tm, opts, visited =>
    match List.lookup typeName tm with
    | none => Sel.node []
    | some ti =>
      let recF := fun tn v => ctsFuel fuel tn tm opts v
      let base : List (String × Sel) :=
        if opts.includeTypename then [("__typename", Sel.leaf false)] else []
      let withFields := ctsFields recF ti.fields tm visited base
      let withIfaces :=
        if ti.interfaces.isEmpty then withFields
        else addKey withFields ("on_" ++ typeName) Sel.selfRef
      let withUnions := (ctsUnions recF ti.possibleTypes visited withIfaces).1
      Sel.node withUnions

/-- The schema cache of src/createSelectionObject.ts, keyed by the raw SDL
text, holding the computed type map and query type name. -/
abbrev SchemaCache := List (String × (TypeMap × String))

/-- Embedding of createSelectionObject (src/createSelectionObject.ts): empty
SDL guard, cache lookup, parse via the external collaborator, the
type-definition check, the two visit passes, query-type resolution, cache
insertion, and the createTypeSelection call. Returns the result together
with the updated cache. -/
def createSelectionObjectTS (fuel : Nat) (parseF : String → Except String AstDoc)
    (sdl : String) (opts : SelOptions) (cache : SchemaCache) :
    Except CsoErr Sel × SchemaCache :=
  if sdl = "" then (Except.error CsoErr.emptySDL, cache)
  else
    match List.lookup sdl cache with
    | some (tm, qtn) => (Except.ok (ctsFuel fuel qtn tm opts []), cache)
    | none =>
      match parseF sdl with
      | Except.error m => (Except.error (CsoErr.syntaxError m), cache)
      | Except.ok doc =>
        if ! doc.any isTypeDefinition then (Except.error CsoErr.noTypeDefs, cache)
        else
          let p1 := pass1 doc
          match pass2 doc p1.1 with
          | Except.error e => (Except.error e, cache)
          | Except.ok tm2 =>
            match p1.2 with
            | none => (Except.error CsoErr.noQueryType, cache)
            | some qtn =>
              if (List.lookup qtn tm2).isNone then
                (Except.error (CsoErr.queryTypeNotFound qtn), cache)
              else
                (Except.ok (ctsFuel fuel qtn tm2 opts []),
                 (sdl, (tm2, qtn)) :: cache)

mutual

/-- Every boolean leaf of the tree is false. -/
def allFalse : Sel → Bool
  | .leaf b => ! b
  | .selfRef => true
  | .node entries => allFalseList entries

/-- Every boolean leaf under every entry is false. -/
def allFalseList : List (String × Sel) → Bool
  | [] => true
  | (_, v) :: r => allFalse v && allFalseList r

end

/- ===== Fuel-indexed mirror evaluators =====
   The well-founded definitions above are the faithful embeddings; the
   kernel does not reduce them on closed inputs, so each one gets a mirror
   whose recursion is structural in an explicit fuel argument. Bridge
   theorems below prove the mirrors agree with the embeddings whenever the
   fuel dominates the recursion measure; concrete evaluations go through
   the mirrors. -/

/-- Mirror of bfsRegular with the recursive serializer call abstracted. -/
def bfsRegularE (recF : JValue → Option GType → Except String String)
    (inner : List (String × JValue)) (fieldType : Option GType) (schema : Schema) :
    Except String (List String) :=
  match inner with
  | [] => Except.ok []
  | (subFieldName, v) :: rest =>
    if startsWithOn subFieldName || subFieldName = "__typename" then
      bfsRegularE recF rest fieldType schema
    else
      let subField := match fieldType with
        | some ft => if ft.hasGetFields then ft.fields.lookup subFieldName else none
        | none => none
      match subField with
      | none => bfsRegularE recF rest fieldType schema
      | some subRef =>
        if v.typeofObject then do
          let subSel ← recF v (schema.getType subRef.unwrapName)
          let r ← bfsRegularE recF rest fieldType schema
          if subSel ≠ "" then
            Except.ok ((subFieldName ++ " \x7b " ++ subSel ++ " \x7d") :: r)
          else Except.ok r
        else if v.isTrue then do
          let r ← bfsRegularE recF rest fieldType schema
          Except.ok (subFieldName :: r)
        else bfsRegularE recF rest fieldType schema

/-- Mirror of bfsFragments with the recursive serializer call abstracted. -/
def bfsFragmentsE (recF : JValue → Option GType → Except String String)
    (inner : List (String × JValue)) (schema : Schema) :
    Except String (List String) :=
  match inner with
  | [] => Except.ok []
  | (subFieldName, v) :: rest =>
    if startsWithOn subFieldName then
      let typeName := dropOn subFieldName
      match schema.getType typeName with
      | some typeObj => do
        let fragSel ← recF v (some typeObj)
        let r ← bfsFragmentsE recF rest schema
        if fragSel ≠ "" then
          Except.ok (("... on " ++ typeName ++ " \x7b " ++ fragSel ++ " \x7d") :: r)
        else Except.ok r
      | none => bfsFragmentsE recF rest schema
    else bfsFragmentsE recF rest schema

/-- Mirror of bfsEntryItems with the recursive serializer call abstracted. -/
def bfsEntryItemsE (recF : JValue → Option GType → Except String String)
    (fieldName : String) (isSelected : JValue) (ty : GType) (schema : Schema) :
    Except String (List String) :=
  if startsWithOn fieldName then Except.ok []
  else if fieldName = "__typename" then
    if isSelected.isTrue then Except.ok ["__typename"] else Except.ok []
  else
    match ty.fields.lookup fieldName with
    | none => Except.ok []
    | some fieldRef =>
      let fieldType := schema.getType fieldRef.unwrapName
      match isSelected with
      | .vobj inner =>
        if inner.isEmpty then Except.ok [fieldName ++ " \x7b\x7d"]
        else if inner.any (fun p => startsWithOn p.1) then do
          let tn := if (jlookup inner "__typename").elim false JValue.isTrue then
                      ["__typename"] else []
          let regs ← bfsRegularE recF inner fieldType schema
          let frs ← bfsFragmentsE recF inner schema
          let allSel := String.intercalate " "
            (((tn ++ regs) ++ frs).filter (fun s => s ≠ ""))
          Except.ok [if allSel ≠ "" then
                       fieldName ++ " \x7b " ++ allSel ++ " \x7d"
                     else fieldName ++ " \x7b\x7d"]
        else do
          let subSel ← recF (JValue.vobj inner) fieldType
          Except.ok [if subSel ≠ "" then
                       fieldName ++ " \x7b " ++ subSel ++ " \x7d"
                     else fieldName ++ " \x7b\x7d"]
      | .vnull => Except.error nullKeysError
      | _ =>
        if isSelected.isTrue then Except.ok [fieldName]
        else Except.ok []

/-- Mirror of bfsEntries with the recursive serializer call abstracted. -/
def bfsEntriesE (recF : JValue → Option GType → Except String String)
    (entries : List (String × JValue)) (ty : GType) (schema : Schema) :
    Except String (List String) :=
  match entries with
  | [] => Except.ok []
  | (fieldName, isSelected) :: rest => do
    let items ← bfsEntryItemsE recF fieldName isSelected ty schema
    let r ← bfsEntriesE recF rest ty schema
    Except.ok (items ++ r)

/-- Fuel-indexed mirror of buildFieldSelections; structural in fuel, so the
kernel evaluates it on closed inputs. -/
def bfsE : Nat → JValue → Option GType → Schema → Except String String
  | 0, _, _, _ => Except.error "fuel exhausted"
  | fuel + 1, sel, gt, schema =>
    match sel with
    | .vobj entries =>
      match gt with
      | some ty =>
        if ty.hasGetFields then
          if entries.isEmpty then Except.ok ""
          else do
            let sels ← bfsEntriesE (fun v g => bfsE fuel v g schema) entries ty schema
            Except.ok (String.intercalate " " sels)
        else Except.ok ""
      | none => Except.ok ""
    | _ => Except.ok ""

/-- Fuel-indexed mirror of buildQuery. -/
def buildQueryE (fuel : Nat) (buildSchemaF : String → Except String Schema)
    (schemaSDL : JValue) (selectionObject : JValue)
    (opts : BuildQueryOptions) : Except String String :=
  match schemaSDL with
  | .vstr s =>
    if s = "" then Except.error "Schema must be a valid SDL string"
    else
      match selectionObject with
      | .vobj _ => do
        let schema ← buildSchemaF s
        let opType := effectiveOperationType opts
        let rootName :=
          if opType = "query" then some schema.queryType
          else if opType = "mutation" then some schema.mutationType
          else if opType = "subscription" then some schema.subscriptionType
          else none
        match rootName with
        | none => Except.error ("Unsupported operation type: " ++ opType)
        | some rn =>
          match rn.bind schema.getType with
          | none => Except.error ("No " ++ opType ++ " type found in schema.")
          | some rootType => do
            let fieldsString ← bfsE fuel selectionObject (some rootType) schema
            let operationNameStr :=
              match opts.operationName with
              | none => ""
              | some nm => if nm = "" then "" else " " ++ nm
            if fieldsString = "" then
              Except.ok (opType ++ operationNameStr ++ " \x7b\x7d")
            else
              Except.ok (opType ++ operationNameStr ++ " \x7b\n  " ++ fieldsString ++ "\n\x7d")
      | _ => Except.error "Selection object must be a valid object"
  | .vnull => Except.error "Schema must be a valid SDL string"
  | .vb _ => Except.error "Schema must be a valid SDL string"
  | .vobj _ => Except.error "Schema must be a valid SDL string"

/-- Mirror of possibleList with the recursive recurseBody call abstracted. -/
def possibleListE (recB : GType → List String → Sel) (members : List String)
    (schema : Schema) (visited : List String) : List (String × Sel) :=
  match members with
  | [] => []
  | m :: rest =>
    let value :=
      match schema.getType m with
      | none => Sel.node []
      | some mt =>
        if mt.name = "" then Sel.node []
        else if inList mt.name visited then
          (if mt.hasGetFields then shallowFields mt else Sel.node [])
        else recB mt (mt.name :: visited)
    ("on_" ++ m, value) :: possibleListE recB rest schema visited

/-- Mirror of ifaceFieldList with the recursive recurseBody call abstracted. -/
def ifaceFieldListE (recB : GType → List String → Sel)
    (fields : List (String × TypeRef)) (schema : Schema) (visited : List String) :
    List (String × Sel) :=
  match fields with
  | [] => []
  | (fname, tref) :: rest =>
    let value :=
      match schema.getType tref.unwrapName with
      | none => Sel.leaf false
      | some ft =>
        if ft.hasGetFields then
          if ft.name = "" then Sel.node []
          else if inList ft.name visited then shallowFields ft
          else recB ft (ft.name :: visited)
        else Sel.leaf false
    (fname, value) :: ifaceFieldListE recB rest schema visited

/-- Mirror of handleInterface with the recursive recurseBody call abstracted. -/
def handleInterfaceE (recB : GType → List String → Sel) (it : GType)
    (schema : Schema) (opts : SelOptions) (visited : List String) : Sel :=
  Sel.node (
    (if opts.includeTypename then [("__typename", Sel.leaf false)] else [])
    ++ (if it.hasGetFields then ifaceFieldListE recB it.fields schema visited else [])
    ++ possibleListE recB it.possibleTypes schema visited)

/-- Mirror of handleUnion with the recursive recurseBody call abstracted. -/
def handleUnionE (recB : GType → List String → Sel) (ut : GType)
    (schema : Schema) (opts : SelOptions) (visited : List String) : Sel :=
  Sel.node (
    (if opts.includeTypename then [("__typename", Sel.leaf false)] else [])
    ++ possibleListE recB ut.possibleTypes schema visited)

/-- Mirror of recurseFieldValue with the recursive recurseBody call
abstracted. -/
def recurseFieldValueE (recB : GType → List String → Sel) (tref : TypeRef)
    (schema : Schema) (opts : SelOptions) (visited : List String) : Sel :=
  match schema.getType tref.unwrapName with
  | none => Sel.leaf false
  | some ft =>
    if ft.hasGetFields then
      if ft.name = "" then Sel.node []
      else if inList ft.name visited then shallowFields ft
      else recB ft (ft.name :: visited)
    else if ft.isInterfaceKind then handleInterfaceE recB ft schema opts visited
    else if ft.isUnionKind then handleUnionE recB ft schema opts visited
    else Sel.leaf false

/-- Mirror of recurseFieldList with the recursive recurseBody call
abstracted. -/
def recurseFieldListE (recB : GType → List String → Sel)
    (fields : List (String × TypeRef)) (schema : Schema) (opts : SelOptions)
    (visited : List String) : List (String × Sel) :=
  match fields with
  | [] => []
  | (fname, tref) :: rest =>
    (fname, recurseFieldValueE recB tref schema opts visited) ::
      recurseFieldListE recB rest schema opts visited

/-- Fuel-indexed mirror of recurseBody; structural in fuel. -/
def recurseBodyE : Nat → GType → Schema → SelOptions → List String → Sel
  | 0, _, _, _, _ => Sel.node []
  | fuel + 1, t, schema, opts, visited =>
    if t.hasGetFields then
      Sel.node (recurseFieldListE (fun ft v => recurseBodyE fuel ft schema opts v)
        t.fields schema opts visited)
    else Sel.node []

/-- Fuel-indexed mirror of the recurseFields entry point. -/
def recurseFieldsE (fuel : Nat) (gt : Option GType) (schema : Schema)
    (opts : SelOptions) (visited : List String) : Sel :=
  match gt with
  | none => Sel.node []
  | some t =>
    if t.name = "" then Sel.node []
    else if inList t.name visited then
      (if t.hasGetFields then shallowFields t else Sel.node [])
    else recurseBodyE fuel t schema opts (t.name :: visited)

/-- Fuel-indexed mirror of createSelectionObjectJS. -/
def createSelectionObjectJSE (fuel : Nat)
    (buildSchemaF : String → Except String Schema) (sdl : String)
    (opts : SelOptions) : Except String Sel := do
  let schema ← buildSchemaF sdl
  match schema.getQueryType with
  | none => Except.error "No query type found in schema."
  | some queryType => Except.ok (recurseFieldsE fuel (some queryType) schema opts [])

/- ===== Concrete fixtures: representative schemas from the spec and the
   repository test suite, delivered by stub collaborators ===== -/

/-- Field access on a generated selection tree. -/
def getField (s : Sel) (k : String) : Option Sel :=
  match s with
  | .node l => slookup l k
  | _ => none

/-- The User type of the spec example schema. -/
def UserT : GType :=
  GType.mk "User" TKind.object
    [("id", TypeRef.nonNull (TypeRef.named "ID")),
     ("name", TypeRef.nonNull (TypeRef.named "String"))] []

/-- The Query type of the spec example schema. -/
def QueryT : GType :=
  GType.mk "Query" TKind.object [("user", TypeRef.named "User")] []

/-- The spec example schema: type Query with a user field of type User. -/
def schemaUser : Schema := Schema.mk [QueryT, UserT] (some "Query") none none

/-- A mutation root with createUser returning User. -/
def MutationT : GType :=
  GType.mk "Mutation" TKind.object [("createUser", TypeRef.named "User")] []

/-- The spec example schema extended with a mutation root. -/
def schemaMutation : Schema :=
  Schema.mk [QueryT, MutationT, UserT] (some "Query") (some "Mutation") none

/-- The Product interface of the repository test schema, implemented by
PhysicalProduct and DigitalProduct. -/
def ProductT : GType :=
  GType.mk "Product" TKind.interface
    [("id", TypeRef.nonNull (TypeRef.named "ID")),
     ("name", TypeRef.nonNull (TypeRef.named "String")),
     ("price", TypeRef.nonNull (TypeRef.named "Float"))]
    ["PhysicalProduct", "DigitalProduct"]

/-- PhysicalProduct implementer of Product. -/
def PhysicalProductT : GType :=
  GType.mk "PhysicalProduct" TKind.object
    [("id", TypeRef.nonNull (TypeRef.named "ID")),
     ("name", TypeRef.nonNull (TypeRef.named "String")),
     ("price", TypeRef.nonNull (TypeRef.named "Float")),
     ("weight", TypeRef.named "Float"),
     ("dimensions", TypeRef.named "String")] []

/-- DigitalProduct implementer of Product. -/
def DigitalProductT : GType :=
  GType.mk "DigitalProduct" TKind.object
    [("id", TypeRef.nonNull (TypeRef.named "ID")),
     ("name", TypeRef.nonNull (TypeRef.named "String")),
     ("price", TypeRef.nonNull (TypeRef.named "Float")),
     ("downloadUrl", TypeRef.named "String"),
     ("fileSize", TypeRef.named "String")] []

/-- Query root exposing the Product interface field. -/
def QueryProductT : GType :=
  GType.mk "Query" TKind.object [("product", TypeRef.named "Product")] []

/-- Interface schema with two implementers, as in the repository tests. -/
def schemaProduct : Schema :=
  Schema.mk [QueryProductT, ProductT, PhysicalProductT, DigitalProductT]
    (some "Query") none none

/-- The Node interface with one implementer, from the repository tests. -/
def NodeT : GType :=
  GType.mk "Node" TKind.interface
    [("id", TypeRef.nonNull (TypeRef.named "ID"))] ["User"]

/-- The User implementer of Node. -/
def NUserT : GType :=
  GType.mk "User" TKind.object
    [("id", TypeRef.nonNull (TypeRef.named "ID")),
     ("name", TypeRef.nonNull (TypeRef.named "String"))] []

/-- Query root exposing the Node interface field. -/
def NQueryT : GType :=
  GType.mk "Query" TKind.object [("node", TypeRef.named "Node")] []

/-- Interface schema for the generator: Query.node of interface type Node,
implemented by User. -/
def schemaNode : Schema :=
  Schema.mk [NQueryT, NodeT, NUserT] (some "Query") none none

/-- The self-referential Person type of the repository circular-schema
test. -/
def PersonT : GType :=
  GType.mk "Person" TKind.object
    [("id", TypeRef.nonNull (TypeRef.named "ID")),
     ("name", TypeRef.nonNull (TypeRef.named "String")),
     ("bestFriend", TypeRef.named "Person"),
     ("friends", TypeRef.listOf (TypeRef.nonNull (TypeRef.named "Person")))] []

/-- Query root exposing the self-referential Person. -/
def PQueryT : GType :=
  GType.mk "Query" TKind.object [("person", TypeRef.named "Person")] []

/-- The circular schema of the repository tests. -/
def schemaPerson : Schema := Schema.mk [PQueryT, PersonT] (some "Query") none none

/-- Stub for the external buildSchema collaborator: a fixed mapping from SDL
texts to their type graphs, failing on everything else the way the graphql
parser does. -/
def buildSchemaStub : String → Except String Schema := fun s =>
  if s = "SDL_USER" then Except.ok schemaUser
  else if s = "SDL_MUTATION" then Except.ok schemaMutation
  else if s = "SDL_PRODUCT" then Except.ok schemaProduct
  else if s = "SDL_NODE" then Except.ok schemaNode
  else if s = "SDL_PERSON" then Except.ok schemaPerson
  else Except.error "Syntax Error: Unexpected Name"

/-- The circular schema as an AST document for the TS generator. -/
def personDoc : AstDoc :=
  [AstDef.objectDef "Query" [] [("person", TypeRef.named "Person")],
   AstDef.objectDef "Person" []
     [("id", TypeRef.nonNull (TypeRef.named "ID")),
      ("name", TypeRef.nonNull (TypeRef.named "String")),
      ("bestFriend", TypeRef.named "Person"),
      ("friends", TypeRef.listOf (TypeRef.nonNull (TypeRef.named "Person")))]]

/-- Stub for the external graphql parse collaborator used by the TS
generator. -/
def parseStubTS : String → Except String AstDoc := fun s =>
  if s = "SDL_PERSON" then Except.ok personDoc
  else Except.error "Syntax Error: Unexpected Name"

/-- Claim C4 family of selections on the Product interface field: the
__typename toggle and the leaf toggles under the two implementer
subtrees. -/
def productSelection (tn w dm du : Bool) : JValue :=
  JValue.vobj [("product", JValue.vobj
    [("__typename", JValue.vb tn),
     ("id", JValue.vb true),
     ("name", JValue.vb false),
     ("on_PhysicalProduct", JValue.vobj
        [("weight", JValue.vb w), ("dimensions", JValue.vb dm)]),
     ("on_DigitalProduct", JValue.vobj [("downloadUrl", JValue.vb du)])])]

/-- The output the serializer should produce for productSelection, built
per the fragment-fidelity contract: __typename once when toggled, then the
selected interface-level fields, then one inline-fragment block per
implementer whose subtree produced a non-empty body, each block containing
only its own selected fields. -/
def expectedProductQuery (tn w dm du : Bool) : String :=
  let physBody := String.intercalate " "
    ((if w then ["weight"] else []) ++ (if dm then ["dimensions"] else []))
  let digBody := if du then "downloadUrl" else ""
  let innerParts :=
    (if tn then ["__typename"] else []) ++ ["id"]
    ++ (if physBody ≠ "" then
          ["... on PhysicalProduct \x7b " ++ physBody ++ " \x7d"] else [])
    ++ (if digBody ≠ "" then
          ["... on DigitalProduct \x7b " ++ digBody ++ " \x7d"] else [])
  "query \x7b product \x7b " ++ String.intercalate " " innerParts ++ " \x7d \x7d"

/-- The JS test `x !== null`. -/
def notNull : JValue → Bool
  | .vnull => false
  | _ => true

mutual

/-- Nested selection values contain no null (the shape the TypeScript
SelectionObject type enforces); a null as the whole selection is allowed
since the serializer guards for it. -/
def nullFreeVals : JValue → Bool
  | .vobj entries => nullFreeEntries entries
  | _ => true

/-- Entry-list component of nullFreeVals: no entry value is null, and
object values are null-free hereditarily. -/
def nullFreeEntries : List (String × JValue) → Bool
  | [] => true
  | (_, v) :: r => (notNull v && nullFreeVals v) && nullFreeEntries r

end

mutual

/-- Depth of a generated selection tree: leaves and the self-alias marker
have depth zero, a node is one more than the deepest entry. -/
def selDepth : Sel → Nat
  | .leaf _ => 0
  | .selfRef => 0
  | .node l => 1 + selDepthList l

/-- Entry-list component of selDepth. -/
def selDepthList : List (String × Sel) → Nat
  | [] => 0
  | (_, v) :: r => max (selDepth v) (selDepthList r)

end

/-- The JS test that buildQuery applies to its schema argument:
`schemaSDL && typeof schemaSDL === 'string'`. -/
def isTruthyString : JValue → Bool
  | .vstr s => s ≠ ""
  | _ => false

/-- The JS test that buildQuery applies to its selection argument:
`selectionObject && typeof selectionObject === 'object'`. -/
def isObj : JValue → Bool
  | .vobj _ => true
  | _ => false

/- ===== Bridge theorems: the fuel mirrors agree with the embeddings ===== -/

theorem sizeOf_head_val_lt (k : String) (v : JValue) (rest : List (String × JValue)) :
    sizeOf v < sizeOf ((k, v) :: rest) := by
  simp only [List.cons.sizeOf_spec, Prod.mk.sizeOf_spec]
  omega

theorem sizeOf_rest_lt (k : String) (v : JValue) (rest : List (String × JValue)) :
    sizeOf rest < sizeOf ((k, v) :: rest) := by
  simp only [List.cons.sizeOf_spec]
  omega

theorem sizeOf_inner_lt (inner : List (String × JValue)) :
    sizeOf inner < sizeOf (JValue.vobj inner) := by
  simp only [JValue.vobj.sizeOf_spec]
  omega

theorem bfsRegularE_eq (schema : Schema)
    (recF : JValue → Option GType → Except String String)
    (inner : List (String × JValue))
    (hrec : ∀ v gt, sizeOf v ≤ sizeOf inner → recF v gt = buildFieldSelections v gt schema) :
    ∀ fieldType, bfsRegularE recF inner fieldType schema = bfsRegular inner fieldType schema := by
  induction inner with
  | nil => intro fieldType; rw [bfsRegularE.eq_def, bfsRegular.eq_def]
  | cons head rest ih =>
    intro fieldType
    obtain ⟨subFieldName, v⟩ := head
    have hrest : ∀ w gt, sizeOf w ≤ sizeOf rest → recF w gt = buildFieldSelections w gt schema :=
      fun w gt hw => hrec w gt (le_of_lt (lt_of_le_of_lt hw (sizeOf_rest_lt _ _ _)))
    have hv2 : ∀ gt, recF v gt = buildFieldSelections v gt schema :=
      fun gt => hrec v gt (le_of_lt (sizeOf_head_val_lt _ _ _))
    rw [bfsRegularE.eq_def, bfsRegular.eq_def]
    simp only [hv2, ih hrest]

theorem bfsFragmentsE_eq (schema : Schema)
    (recF : JValue → Option GType → Except String String)
    (inner : List (String × JValue))
    (hrec : ∀ v gt, sizeOf v ≤ sizeOf inner → recF v gt = buildFieldSelections v gt schema) :
    bfsFragmentsE recF inner schema = bfsFragments inner schema := by
  induction inner with
  | nil => rw [bfsFragmentsE.eq_def, bfsFragments.eq_def]
  | cons head rest ih =>
    obtain ⟨subFieldName, v⟩ := head
    have hrest : ∀ w gt, sizeOf w ≤ sizeOf rest → recF w gt = buildFieldSelections w gt schema :=
      fun w gt hw => hrec w gt (le_of_lt (lt_of_le_of_lt hw (sizeOf_rest_lt _ _ _)))
    have hv2 : ∀ gt, recF v gt = buildFieldSelections v gt schema :=
      fun gt => hrec v gt (le_of_lt (sizeOf_head_val_lt _ _ _))
    rw [bfsFragmentsE.eq_def, bfsFragments.eq_def]
    simp only [hv2, ih hrest]

theorem bfsEntryItemsE_eq (schema : Schema)
    (recF : JValue → Option GType → Except String String)
    (fieldName : String) (isSelected : JValue) (ty : GType)
    (hrec : ∀ v gt, sizeOf v ≤ sizeOf isSelected → recF v gt = buildFieldSelections v gt schema) :
    bfsEntryItemsE recF fieldName isSelected ty schema
      = bfsEntryItems fieldName isSelected ty schema := by
  cases isSelected with
  | vnull => rw [bfsEntryItemsE.eq_def, bfsEntryItems.eq_def]
  | vb b => rw [bfsEntryItemsE.eq_def, bfsEntryItems.eq_def]
  | vstr s => rw [bfsEntryItemsE.eq_def, bfsEntryItems.eq_def]
  | vobj inner =>
    have hval : ∀ gt, recF (JValue.vobj inner) gt
        = buildFieldSelections (JValue.vobj inner) gt schema :=
      fun gt => hrec _ gt (le_refl _)
    have hinner : ∀ w gt, sizeOf w ≤ sizeOf inner → recF w gt = buildFieldSelections w gt schema :=
      fun w gt hw => hrec w gt (le_of_lt (lt_of_le_of_lt hw (sizeOf_inner_lt inner)))
    rw [bfsEntryItemsE.eq_def, bfsEntryItems.eq_def]
    simp only [hval, bfsRegularE_eq schema recF inner hinner,
      bfsFragmentsE_eq schema recF inner hinner]

theorem bfsEntriesE_eq (schema : Schema)
    (recF : JValue → Option GType → Except String String)
    (entries : List (String × JValue)) (ty : GType)
    (hrec : ∀ v gt, sizeOf v ≤ sizeOf entries → recF v gt = buildFieldSelections v gt schema) :
    bfsEntriesE recF entries ty schema = bfsEntries entries ty schema := by
  induction entries with
  | nil => rw [bfsEntriesE.eq_def, bfsEntries.eq_def]
  | cons head rest ih =>
    obtain ⟨fieldName, isSelected⟩ := head
    have hrest : ∀ w gt, sizeOf w ≤ sizeOf rest → recF w gt = buildFieldSelections w gt schema :=
      fun w gt hw => hrec w gt (le_of_lt (lt_of_le_of_lt hw (sizeOf_rest_lt _ _ _)))
    have hsel : ∀ w gt, sizeOf w ≤ sizeOf isSelected → recF w gt = buildFieldSelections w gt schema :=
      fun w gt hw => hrec w gt (le_of_lt (lt_of_le_of_lt hw (sizeOf_head_val_lt _ _ _)))
    rw [bfsEntriesE.eq_def, bfsEntries.eq_def]
    simp only [ih hrest, bfsEntryItemsE_eq schema recF fieldName isSelected ty hsel]

theorem jvalue_sizeOf_pos (v : JValue) : 1 ≤ sizeOf v := by
  cases v <;> simp

theorem bfsE_eq (fuel : Nat) :
    ∀ (sel : JValue) (gt : Option GType) (schema : Schema),
      sizeOf sel ≤ fuel → bfsE fuel sel gt schema = buildFieldSelections sel gt schema := by
  induction fuel with
  | zero =>
    intro sel gt schema h
    exact absurd h (by have := jvalue_sizeOf_pos sel; omega)
  | succ fuel ih =>
    intro sel gt schema h
    cases sel with
    | vnull =>
      rw [bfsE, buildFieldSelections.eq_def]
      all_goals intro _ hx; cases hx
    | vb b =>
      rw [bfsE, buildFieldSelections.eq_def]
      all_goals intro _ hx; cases hx
    | vstr s =>
      rw [bfsE, buildFieldSelections.eq_def]
      all_goals intro _ hx; cases hx
    | vobj entries =>
      have hentries : sizeOf entries ≤ fuel := by
        simp only [JValue.vobj.sizeOf_spec] at h
        omega
      cases gt with
      | none => rw [bfsE, buildFieldSelections.eq_def]
      | some ty =>
        rw [bfsE, buildFieldSelections.eq_def]
        simp only [bfsEntriesE_eq schema (fun v g => bfsE fuel v g schema) entries ty
          (fun v g hv => ih v g schema (le_trans hv hentries))]

theorem buildQueryE_eq (fuel : Nat) (buildSchemaF : String → Except String Schema)
    (schemaSDL : JValue) (selectionObject : JValue) (opts : BuildQueryOptions)
    (h : sizeOf selectionObject ≤ fuel) :
    buildQueryE fuel buildSchemaF schemaSDL selectionObject opts
      = buildQuery buildSchemaF schemaSDL selectionObject opts := by
  have hb : ∀ gt schema, bfsE fuel selectionObject gt schema
      = buildFieldSelections selectionObject gt schema :=
    fun gt schema => bfsE_eq fuel selectionObject gt schema h
  cases schemaSDL with
  | vnull => rw [buildQueryE, buildQuery]
  | vb b => rw [buildQueryE, buildQuery]
  | vstr s =>
    cases selectionObject with
    | vnull =>
      rw [buildQueryE, buildQuery]
      all_goals intro _ hx; cases hx
    | vb b =>
      rw [buildQueryE, buildQuery]
      all_goals intro _ hx; cases hx
    | vstr s2 =>
      rw [buildQueryE, buildQuery]
      all_goals intro _ hx; cases hx
    | vobj l =>
      rw [buildQueryE, buildQuery]
      simp only [hb]
  | vobj l => rw [buildQueryE, buildQuery]

theorem unvisited_cons_le (schema : Schema) (x : String) (v : List String) :
    unvisited schema (x :: v) ≤ unvisited schema v := by
  apply length_filter_le_of_imp
  intro n hn
  simp only [Bool.not_eq_true'] at hn ⊢
  cases hv : inList n v
  · rfl
  · exfalso
    have : inList n (x :: v) = true := by
      simp only [inList]
      by_cases hx : x = n
      · simp [hx]
      · simp [hx, hv]
    rw [this] at hn
    cases hn

theorem possibleListE_eq (schema : Schema) (opts : SelOptions)
    (recB : GType → List String → Sel) (members : List String) (visited : List String)
    (hB : ∀ ft v', unvisited schema v' < unvisited schema visited →
      recB ft v' = recurseBody ft schema opts v') :
    possibleListE recB members schema visited = possibleList members schema opts visited := by
  induction members with
  | nil => rw [possibleListE, possibleList.eq_def]
  | cons m rest ih =>
    rw [possibleListE, possibleList.eq_def]
    rw [ih]
    congr 2
    symm
    split
    · next heq => simp only [heq]
    · next mt heq =>
      simp only [heq]
      split_ifs with h1 h2 h3
      · rfl
      · rfl
      · rfl
      · exact (hB mt _ (unvisited_getType_lt schema m mt visited heq h2)).symm

theorem ifaceFieldListE_eq (schema : Schema) (opts : SelOptions)
    (recB : GType → List String → Sel) (fields : List (String × TypeRef))
    (visited : List String)
    (hB : ∀ ft v', unvisited schema v' < unvisited schema visited →
      recB ft v' = recurseBody ft schema opts v') :
    ifaceFieldListE recB fields schema visited = ifaceFieldList fields schema opts visited := by
  induction fields with
  | nil => rw [ifaceFieldListE, ifaceFieldList.eq_def]
  | cons fp rest ih =>
    obtain ⟨fname, tref⟩ := fp
    rw [ifaceFieldListE, ifaceFieldList.eq_def]
    rw [ih]
    congr 2
    symm
    split
    · next heq => simp only [heq]
    · next ft heq =>
      simp only [heq]
      split_ifs with h1 h2 h3
      · rfl
      · rfl
      · exact (hB ft _ (unvisited_getType_lt schema _ ft visited heq h3)).symm
      · rfl

theorem handleInterfaceE_eq (schema : Schema) (opts : SelOptions)
    (recB : GType → List String → Sel) (it : GType) (visited : List String)
    (hB : ∀ ft v', unvisited schema v' < unvisited schema visited →
      recB ft v' = recurseBody ft schema opts v') :
    handleInterfaceE recB it schema opts visited = handleInterface it schema opts visited := by
  rw [handleInterfaceE, handleInterface.eq_def]
  rw [ifaceFieldListE_eq schema opts recB it.fields visited hB,
    possibleListE_eq schema opts recB it.possibleTypes visited hB]

theorem handleUnionE_eq (schema : Schema) (opts : SelOptions)
    (recB : GType → List String → Sel) (ut : GType) (visited : List String)
    (hB : ∀ ft v', unvisited schema v' < unvisited schema visited →
      recB ft v' = recurseBody ft schema opts v') :
    handleUnionE recB ut schema opts visited = handleUnion ut schema opts visited := by
  rw [handleUnionE, handleUnion.eq_def]
  rw [possibleListE_eq schema opts recB ut.possibleTypes visited hB]

theorem recurseFieldValueE_eq (schema : Schema) (opts : SelOptions)
    (recB : GType → List String → Sel) (tref : TypeRef) (visited : List String)
    (hB : ∀ ft v', unvisited schema v' < unvisited schema visited →
      recB ft v' = recurseBody ft schema opts v') :
    recurseFieldValueE recB tref schema opts visited
      = recurseFieldValue tref schema opts visited := by
  rw [recurseFieldValueE.eq_def]
  symm
  rw [recurseFieldValue.eq_def]
  split
  · next heq => simp only [heq]
  · next ft heq =>
    simp only [heq]
    split_ifs with h1 h2 h3 h4 h5
    · rfl
    · rfl
    · exact (hB ft _ (unvisited_getType_lt schema _ ft visited heq h3)).symm
    · exact (handleInterfaceE_eq schema opts recB ft visited hB).symm
    · exact (handleUnionE_eq schema opts recB ft visited hB).symm
    · rfl

theorem recurseFieldListE_eq (schema : Schema) (opts : SelOptions)
    (recB : GType → List String → Sel) (fields : List (String × TypeRef))
    (visited : List String)
    (hB : ∀ ft v', unvisited schema v' < unvisited schema visited →
      recB ft v' = recurseBody ft schema opts v') :
    recurseFieldListE recB fields schema opts visited
      = recurseFieldList fields schema opts visited := by
  induction fields with
  | nil => rw [recurseFieldListE, recurseFieldList.eq_def]
  | cons fp rest ih =>
    obtain ⟨fname, tref⟩ := fp
    rw [recurseFieldListE, recurseFieldList.eq_def]
    rw [recurseFieldValueE_eq schema opts recB tref visited hB, ih]

theorem recurseBodyE_eq (fuel : Nat) :
    ∀ (t : GType) (schema : Schema) (opts : SelOptions) (visited : List String),
      unvisited schema visited < fuel →
      recurseBodyE fuel t schema opts visited = recurseBody t schema opts visited := by
  induction fuel with
  | zero => intro t schema opts visited h; omega
  | succ fuel ih =>
    intro t schema opts visited h
    rw [recurseBodyE, recurseBody.eq_def]
    by_cases hgf : t.hasGetFields = true
    · simp only [hgf, if_true]
      rw [recurseFieldListE_eq schema opts _ t.fields visited
        (fun ft v' hv' => ih ft schema opts v' (by omega))]
    · simp only [hgf]
      rfl

theorem recurseFieldsE_eq (fuel : Nat) (gt : Option GType) (schema : Schema)
    (opts : SelOptions) (visited : List String)
    (h : unvisited schema visited < fuel) :
    recurseFieldsE fuel gt schema opts visited = recurseFields gt schema opts visited := by
  cases gt with
  | none => rw [recurseFieldsE, recurseFields]
  | some t =>
    rw [recurseFieldsE, recurseFields]
    split_ifs with h1 h2 h3
    · rfl
    · rfl
    · rfl
    · exact recurseBodyE_eq fuel t schema opts (t.name :: visited)
        (lt_of_le_of_lt (unvisited_cons_le schema t.name visited) h)

theorem createSelectionObjectJSE_eq (fuel : Nat)
    (buildSchemaF : String → Except String Schema) (sdl : String) (opts : SelOptions)
    (h : ∀ sch, buildSchemaF sdl = Except.ok sch → unvisited sch [] < fuel) :
    createSelectionObjectJSE fuel buildSchemaF sdl opts
      = createSelectionObjectJS buildSchemaF sdl opts := by
  rw [createSelectionObjectJSE, createSelectionObjectJS]
  cases hb : buildSchemaF sdl with
  | error e => rfl
  | ok sch =>
    show (match sch.getQueryType with
      | none => Except.error "No query type found in schema."
      | some queryType =>
          Except.ok (recurseFieldsE fuel (some queryType) sch opts []))
      = (match sch.getQueryType with
      | none => Except.error "No query type found in schema."
      | some queryType =>
          Except.ok (recurseFields (some queryType) sch opts []))
    cases hq : sch.getQueryType with
    | none => rfl
    | some qt =>
      dsimp only
      rw [recurseFieldsE_eq fuel (some qt) sch opts [] (h sch hb)]

/- ===== Claim theorems ===== -/

/-- C1: on the schema `type Query { user: User } type User { id: ID! name:
String! }`, serializing the selection mapping user to id and name selected
yields text whitespace-equivalent to `query { user { id name } }`; the empty
selection yields `query {}`; and on a schema with a mutation root, the
selection mapping createUser to id selected, with operationType mutation and
operationName CreateNewUser, yields `mutation CreateNewUser { createUser
{ id } }`. -/
theorem claim_C1 :
    (buildQuery buildSchemaStub (JValue.vstr "SDL_USER")
        (JValue.vobj [("user", JValue.vobj [("id", JValue.vb true), ("name", JValue.vb true)])])
        defaultBQOptions).map normWs
      = Except.ok "query \x7b user \x7b id name \x7d \x7d"
    ∧ (buildQuery buildSchemaStub (JValue.vstr "SDL_USER") (JValue.vobj [])
        defaultBQOptions).map normWs
      = Except.ok "query \x7b\x7d"
    ∧ (buildQuery buildSchemaStub (JValue.vstr "SDL_MUTATION")
        (JValue.vobj [("createUser", JValue.vobj [("id", JValue.vb true)])])
        (BuildQueryOptions.mk (some "mutation") (some "CreateNewUser"))).map normWs
      = Except.ok "mutation CreateNewUser \x7b createUser \x7b id \x7d \x7d" := by
  refine ⟨?_, ?_, ?_⟩ <;>
    (rw [← buildQueryE_eq 10000 buildSchemaStub _ _ _ (by decide)]; rfl)

/-- C4: on the interface schema with implementers PhysicalProduct and
DigitalProduct, for every combination of the __typename toggle and of the
leaf toggles under the two on_ subtrees, the serialized output equals the
expected text: one inline-fragment block per implementer whose subtree body
is non-empty, each block containing exactly its own selected fields, with
__typename occurring exactly once when selected; additionally the word
counts of the output confirm the one-block-per-implementer and
own-fields-only facts. -/
theorem claim_C4 : ∀ tn w dm du : Bool,
    (buildQuery buildSchemaStub (JValue.vstr "SDL_PRODUCT")
        (productSelection tn w dm du) defaultBQOptions).map normWs
      = Except.ok (expectedProductQuery tn w dm du)
    ∧ (splitWsAux (expectedProductQuery tn w dm du).data []).count "__typename"
      = (if tn then 1 else 0)
    ∧ (splitWsAux (expectedProductQuery tn w dm du).data []).count "PhysicalProduct"
      = (if w || dm then 1 else 0)
    ∧ (splitWsAux (expectedProductQuery tn w dm du).data []).count "DigitalProduct"
      = (if du then 1 else 0)
    ∧ (splitWsAux (expectedProductQuery tn w dm du).data []).count "weight"
      = (if w then 1 else 0)
    ∧ (splitWsAux (expectedProductQuery tn w dm du).data []).count "dimensions"
      = (if dm then 1 else 0)
    ∧ (splitWsAux (expectedProductQuery tn w dm du).data []).count "downloadUrl"
      = (if du then 1 else 0) := by
  intro tn w dm du
  cases tn <;> cases w <;> cases dm <;> cases du <;>
    exact ⟨by rw [← buildQueryE_eq 10000 buildSchemaStub _ _ _ (by decide)]; rfl,
      by decide, by decide, by decide, by decide, by decide, by decide⟩

theorem unvisited_le_types (schema : Schema) (visited : List String) :
    unvisited schema visited ≤ schema.types.length := by
  calc unvisited schema visited
      ≤ (schema.types.map GType.name).length := List.length_filter_le _ _
    _ = schema.types.length := List.length_map _ _

/-- C5: on the interface schema `type Query { node: Node } interface Node
{ id: ID! } type User implements Node { id name }` with includeTypename
requested, the JS generator emits the node subtree as the plain recursive
object over the interface-declared fields only — no on_User branch and no
__typename — because interface types expose getFields and therefore take
the object branch of recurseFields, leaving handleInterface unreachable;
the second conjunct evaluates the unreachable handleInterface on the same
input, showing it would have produced exactly the subtree the claim
describes. -/
theorem claim_C5 :
    createSelectionObjectJS buildSchemaStub "SDL_NODE" (SelOptions.mk true)
      = Except.ok (Sel.node [("node", Sel.node [("id", Sel.leaf false)])])
    ∧ handleInterface NodeT schemaNode (SelOptions.mk true) ["Query"]
      = Sel.node [("__typename", Sel.leaf false), ("id", Sel.leaf false),
          ("on_User", Sel.node [("id", Sel.leaf false), ("name", Sel.leaf false)])] := by
  constructor
  · rw [← createSelectionObjectJSE_eq 10 buildSchemaStub "SDL_NODE" (SelOptions.mk true)
      (by intro sch h; injection h with h2; subst h2; decide)]
    rfl
  · rw [← handleInterfaceE_eq schemaNode (SelOptions.mk true)
      (fun ft v => recurseBodyE 10 ft schemaNode (SelOptions.mk true) v) NodeT ["Query"]
      (fun ft v' _ => recurseBodyE_eq 10 ft schemaNode (SelOptions.mk true) v'
        (lt_of_le_of_lt (unvisited_le_types schemaNode v') (by decide)))]
    rfl

theorem inList_head (x : String) (v : List String) : inList x (x :: v) = true := by
  simp [inList]

theorem slookup_recurseFieldList (schema : Schema) (opts : SelOptions)
    (visited : List String) (f : String) :
    ∀ fields, slookup (recurseFieldList fields schema opts visited) f
      = (List.lookup f fields).map (fun tref => recurseFieldValue tref schema opts visited) := by
  intro fields
  induction fields with
  | nil => rw [recurseFieldList.eq_def]; rfl
  | cons fp rest ih =>
    obtain ⟨fname, tref⟩ := fp
    rw [recurseFieldList.eq_def]
    show slookup ((fname, recurseFieldValue tref schema opts visited) ::
      recurseFieldList rest schema opts visited) f = _
    by_cases h : fname = f
    · subst h
      simp [slookup, List.lookup]
    · have hb : (f == fname) = false := by
        simp only [beq_eq_false_iff_ne, ne_eq]
        exact fun hh => h hh.symm
      simp only [slookup, if_neg h, List.lookup, hb, ih]

theorem selDepthList_map_false (fields : List (String × TypeRef)) :
    selDepthList (fields.map (fun p => (p.1, Sel.leaf false))) = 0 := by
  induction fields with
  | nil => rfl
  | cons fp rest ih => simp [selDepthList, selDepth, ih]

theorem recurseFields_cycle_shallow (schema : Schema) (opts : SelOptions)
    (visited : List String) (t : GType) (f : String) (r : TypeRef)
    (hres : schema.getType t.name = some t)
    (hgf : t.hasGetFields = true)
    (hname : ¬ t.name = "")
    (hnv : inList t.name visited = false)
    (hfield : List.lookup f t.fields = some r)
    (hunwrap : r.unwrapName = t.name) :
    getField (recurseFields (some t) schema opts visited) f
      = some (Sel.node (t.fields.map (fun p => (p.1, Sel.leaf false)))) := by
  have step1 : recurseFields (some t) schema opts visited
      = recurseBody t schema opts (t.name :: visited) := by
    rw [recurseFields]
    rw [if_neg hname, if_neg (by simp [hnv])]
  rw [step1, recurseBody.eq_def, if_pos hgf]
  show slookup (recurseFieldList t.fields schema opts (t.name :: visited)) f = _
  rw [slookup_recurseFieldList, hfield]
  show some (recurseFieldValue r schema opts (t.name :: visited)) = _
  congr 1
  rw [recurseFieldValue.eq_def, hunwrap]
  split
  · next heq => rw [hres] at heq; cases heq
  · next ft heq =>
    rw [hres] at heq
    injection heq with he
    subst he
    rw [if_pos hgf, if_neg hname, if_pos (inList_head t.name visited)]
    rfl

/-- C2: for every schema containing a self-referential type (a type t with
getFields whose field f unwraps to t itself), the generator terminates — the
recursion converges within fuel bounded by the number of unvisited type
names, first conjunct — and the cyclic field f is present in the generated
subtree for t as a nested object (the shallow all-false field set of t), of
depth at most one: neither infinitely nested nor omitted. -/
theorem claim_C2 (schema : Schema) (opts : SelOptions) (visited : List String)
    (t : GType) (f : String) (r : TypeRef)
    (hres : schema.getType t.name = some t)
    (hgf : t.hasGetFields = true)
    (hname : ¬ t.name = "")
    (hnv : inList t.name visited = false)
    (hfield : List.lookup f t.fields = some r)
    (hunwrap : r.unwrapName = t.name) :
    recurseFieldsE (unvisited schema visited + 1) (some t) schema opts visited
        = recurseFields (some t) schema opts visited
    ∧ getField (recurseFields (some t) schema opts visited) f
        = some (Sel.node (t.fields.map (fun p => (p.1, Sel.leaf false))))
    ∧ selDepth (Sel.node (t.fields.map (fun p => (p.1, Sel.leaf false)))) ≤ 1 := by
  exact ⟨recurseFieldsE_eq _ _ _ _ _ (by omega),
    recurseFields_cycle_shallow schema opts visited t f r hres hgf hname hnv hfield hunwrap,
    by simp [selDepth, selDepthList_map_false]⟩

/-- C2 witness: the circular Person schema of the repository tests, with the
self-referential bestFriend field. -/
theorem claim_C2_witness :
    (recurseFieldsE (unvisited schemaPerson [] + 1) (some PersonT) schemaPerson
        (SelOptions.mk false) []
      = recurseFields (some PersonT) schemaPerson (SelOptions.mk false) [])
    ∧ getField (recurseFields (some PersonT) schemaPerson (SelOptions.mk false) []) "bestFriend"
      = some (Sel.node (PersonT.fields.map (fun p => (p.1, Sel.leaf false))))
    ∧ selDepth (Sel.node (PersonT.fields.map (fun p => (p.1, Sel.leaf false)))) ≤ 1 :=
  claim_C2 schemaPerson (SelOptions.mk false) [] PersonT "bestFriend"
    (TypeRef.named "Person") rfl rfl (by decide) rfl rfl rfl

theorem addKey_append (m : List (String × Sel)) (k : String) (v : Sel)
    (h : ∀ p ∈ m, p.1 ≠ k) : addKey m k v = m ++ [(k, v)] := by
  have hany : List.any m (fun p => p.1 == k) = false := by
    rw [List.any_eq_false]
    intro p hp hbeq
    exact h p hp (eq_of_beq hbeq)
  rw [addKey, hany]
  simp

theorem slookup_map_replace (m : List (String × Sel)) (k f : String) (v : Sel)
    (hk : k ≠ f) :
    slookup (List.map (fun p => if p.1 == k then (k, v) else p) m) f = slookup m f := by
  induction m with
  | nil => rfl
  | cons p rest ih =>
    obtain ⟨pk, pv⟩ := p
    by_cases hpk : (pk == k) = true
    · have hpk2 : pk = k := eq_of_beq hpk
      subst hpk2
      simp only [List.map, hpk, if_true]
      simp only [slookup, if_neg hk, ih]
    · simp only [List.map, if_neg hpk]
      simp only [slookup, ih]

theorem slookup_append_none (a b : List (String × Sel)) (f : String)
    (h : slookup a f = none) : slookup (a ++ b) f = slookup b f := by
  induction a with
  | nil => rfl
  | cons p rest ih =>
    obtain ⟨pk, pv⟩ := p
    by_cases hpf : pk = f
    · subst hpf
      simp [slookup] at h
    · simp only [slookup, if_neg hpf] at h
      simp only [List.cons_append, slookup, if_neg hpf]
      exact ih h

theorem slookup_append (a b : List (String × Sel)) (f : String) :
    slookup (a ++ b) f
      = match slookup a f with
        | some v => some v
        | none => slookup b f := by
  induction a with
  | nil => rfl
  | cons p rest ih =>
    obtain ⟨pk, pv⟩ := p
    by_cases hpf : pk = f
    · subst hpf
      simp [slookup]
    · simp only [List.cons_append, slookup, if_neg hpf]
      exact ih

theorem slookup_addKey_ne (m : List (String × Sel)) (k f : String) (v : Sel)
    (hk : k ≠ f) : slookup (addKey m k v) f = slookup m f := by
  rw [addKey]
  by_cases hany : List.any m (fun p => p.1 == k) = true
  · rw [if_pos hany]
    exact slookup_map_replace m k f v hk
  · rw [if_neg hany, slookup_append]
    cases h : slookup m f with
    | none => simp [slookup, hk]
    | some w => rfl

theorem ctsFields_append (recF : String → List String → Sel) (tm : TypeMap)
    (visited : List String) :
    ∀ (fields : List (String × TypeRef)) (acc : List (String × Sel)),
      (fields.map Prod.fst).Nodup →
      (∀ k, k ∈ fields.map Prod.fst → ∀ p, p ∈ acc → p.1 ≠ k) →
      ctsFields recF fields tm visited acc
        = acc ++ fields.map (fun p => (p.1, ctsFieldValue recF p.2 tm visited)) := by
  intro fields
  induction fields with
  | nil => intro acc _ _; simp [ctsFields]
  | cons fp rest ih =>
    intro acc hnd hdisj
    obtain ⟨fname, tr⟩ := fp
    rw [ctsFields]
    have hstep : addKey acc fname (ctsFieldValue recF tr tm visited)
        = acc ++ [(fname, ctsFieldValue recF tr tm visited)] :=
      addKey_append _ _ _ (fun p hp => hdisj fname (by simp) p hp)
    rw [hstep]
    have hnd2 : (rest.map Prod.fst).Nodup := by
      simp only [List.map, List.nodup_cons] at hnd
      exact hnd.2
    have hfn : fname ∉ rest.map Prod.fst := by
      simp only [List.map, List.nodup_cons] at hnd
      exact hnd.1
    rw [ih (acc ++ [(fname, ctsFieldValue recF tr tm visited)]) hnd2 ?hdisj2]
    · simp
    case hdisj2 =>
      intro k hk p hp
      rcases List.mem_append.mp hp with hpa | hpb
      · exact hdisj k (List.mem_cons_of_mem _ hk) p hpa
      · have : p = (fname, ctsFieldValue recF tr tm visited) := by
          simpa using hpb
        subst this
        intro hcontra
        simp only [] at hcontra
        rw [hcontra] at hfn
        exact hfn hk

theorem slookup_map_value (g : TypeRef → Sel) (f : String) :
    ∀ (fields : List (String × TypeRef)) (r : TypeRef),
      List.lookup f fields = some r →
      slookup (fields.map (fun p => (p.1, g p.2))) f = some (g r) := by
  intro fields
  induction fields with
  | nil => intro r hr; cases hr
  | cons fp rest ih =>
    intro r hr
    obtain ⟨fname, tr⟩ := fp
    by_cases h : fname = f
    · subst h
      simp only [List.lookup, beq_self_eq_true] at hr
      injection hr with hr2
      subst hr2
      simp [slookup]
    · have hb : (f == fname) = false := by
        simp only [beq_eq_false_iff_ne, ne_eq]
        exact fun hh => h hh.symm
      simp only [List.lookup, hb] at hr
      simp only [List.map, slookup, if_neg h]
      exact ih r hr

theorem slookup_ctsUnions (recF : String → List String → Sel) (f : String) :
    ∀ (members : List String) (visited : List String) (acc : List (String × Sel)),
      (∀ pt, pt ∈ members → "on_" ++ pt ≠ f) →
      slookup (ctsUnions recF members visited acc).1 f = slookup acc f := by
  intro members
  induction members with
  | nil => intro visited acc _; rw [ctsUnions]
  | cons pt rest ih =>
    intro visited acc hmem
    rw [ctsUnions]
    rw [ih _ _ (fun q hq => hmem q (List.mem_cons_of_mem _ hq))]
    exact slookup_addKey_ne _ _ _ _ (hmem pt (by simp))

theorem ctsFuel_cycle_stub (fuel : Nat) (tn : String) (tm : TypeMap)
    (opts : SelOptions) (visited : List String) (ti : TypeInfo) (f : String) (r : TypeRef)
    (htm : List.lookup tn tm = some ti)
    (hnd : (ti.fields.map Prod.fst).Nodup)
    (hbase : ∀ p, p ∈ ti.fields → p.1 ≠ "__typename")
    (hft : List.lookup f ti.fields = some r)
    (hvis : inList r.unwrapName visited = true)
    (htname : f ≠ "__typename")
    (hself : "on_" ++ tn ≠ f)
    (hmem : ∀ pt, pt ∈ ti.possibleTypes → "on_" ++ pt ≠ f) :
    getField (ctsFuel (fuel + 1) tn tm opts visited) f = some ctsStub := by
  rw [ctsFuel]
  simp only [htm, getField]
  rw [slookup_ctsUnions _ _ _ _ _ hmem]
  have hbase2 : ∀ k, k ∈ ti.fields.map Prod.fst →
      ∀ p, p ∈ (if opts.includeTypename then
        [("__typename", Sel.leaf false)] else ([] : List (String × Sel))) → p.1 ≠ k := by
    intro k hk p hp
    rcases List.mem_map.mp hk with ⟨q, hq, hqk⟩
    by_cases hop : opts.includeTypename
    · rw [if_pos hop] at hp
      have : p = ("__typename", Sel.leaf false) := by simpa using hp
      subst this
      intro hc
      exact hbase q hq (by rw [hqk, ← hc])
    · rw [if_neg hop] at hp
      cases hp
  have hfields := ctsFields_append (fun tn v => ctsFuel fuel tn tm opts v) tm visited
    ti.fields _ hnd hbase2
  have hnotbase : slookup (if opts.includeTypename then
      [("__typename", Sel.leaf false)] else ([] : List (String × Sel))) f = none := by
    by_cases hop : opts.includeTypename
    · rw [if_pos hop]
      show slookup [("__typename", Sel.leaf false)] f = none
      simp only [slookup, if_neg (fun hh : "__typename" = f => htname hh.symm)]
    · rw [if_neg hop]
      rfl
  have hmapped := slookup_map_value
    (fun tr => ctsFieldValue (fun tn v => ctsFuel fuel tn tm opts v) tr tm visited)
    f ti.fields r hft
  by_cases hifc : ti.interfaces.isEmpty = true
  · rw [if_pos hifc, hfields, slookup_append, hnotbase, hmapped]
    simp only [ctsFieldValue, hvis, if_true]
  · rw [if_neg hifc, slookup_addKey_ne _ _ _ _ hself, hfields, slookup_append,
      hnotbase, hmapped]
    simp only [ctsFieldValue, hvis, if_true]

/-- C3 counterexample: on the circular Person schema, the TS generator
(createSelectionObject of src/createSelectionObject.ts) emits the cyclic
bestFriend field as the fixed placeholder with keys id, name, email, title,
content — not the declared field names of Person (id, name, bestFriend,
friends) — refuting, at this concrete input, the claim that the keys are
exactly the declared field names of the revisited type. -/
theorem claim_C3_counterexample :
    ((createSelectionObjectTS 10 parseStubTS "SDL_PERSON" (SelOptions.mk false) []).1).map
        (fun tree => ((getField tree "person").bind
          (fun p => getField p "bestFriend")).map selKeys)
      = Except.ok (some ["id", "name", "email", "title", "content"])
    ∧ (List.lookup "Person" (pass1 personDoc).1).map (fun ti => ti.fields.map Prod.fst)
      = some ["id", "name", "bestFriend", "friends"]
    ∧ ¬ (["id", "name", "email", "title", "content"]
        = (["id", "name", "bestFriend", "friends"] : List String)) := by
  refine ⟨rfl, rfl, by decide⟩

/-- C3 amended: for a field whose unwrapped named type is already in the
current branch visited set, the JS generator (recurseFields of
src/createSelectionObject.js) emits a nested object whose keys are exactly
the declared field names of that type, each mapped to false, without
recursing; the TS generator (createTypeSelection of
src/createSelectionObject.ts) instead emits the fixed placeholder object
with keys id, name, email, title, content, each false, also without
recursing. -/
theorem claim_C3 :
    (∀ (schema : Schema) (opts : SelOptions) (visited : List String)
        (t : GType) (f : String) (r : TypeRef),
      schema.getType t.name = some t → t.hasGetFields = true → ¬ t.name = "" →
      inList t.name visited = false → List.lookup f t.fields = some r →
      r.unwrapName = t.name →
      getField (recurseFields (some t) schema opts visited) f
        = some (Sel.node (t.fields.map (fun p => (p.1, Sel.leaf false))))
      ∧ selKeys (Sel.node (t.fields.map (fun p => (p.1, Sel.leaf false))))
        = t.fields.map Prod.fst)
    ∧ (∀ (fuel : Nat) (tn : String) (tm : TypeMap) (opts : SelOptions)
        (visited : List String) (ti : TypeInfo) (f : String) (r : TypeRef),
      List.lookup tn tm = some ti →
      (ti.fields.map Prod.fst).Nodup →
      (∀ p, p ∈ ti.fields → p.1 ≠ "__typename") →
      List.lookup f ti.fields = some r →
      inList r.unwrapName visited = true →
      f ≠ "__typename" →
      "on_" ++ tn ≠ f →
      (∀ pt, pt ∈ ti.possibleTypes → "on_" ++ pt ≠ f) →
      getField (ctsFuel (fuel + 1) tn tm opts visited) f = some ctsStub
      ∧ selKeys ctsStub = ["id", "name", "email", "title", "content"]) := by
  constructor
  · intro schema opts visited t f r hres hgf hname hnv hfield hunwrap
    refine ⟨recurseFields_cycle_shallow schema opts visited t f r
      hres hgf hname hnv hfield hunwrap, ?_⟩
    simp [selKeys]
  · intro fuel tn tm opts visited ti f r htm hnd hbase hft hvis htname hself hmem
    exact ⟨ctsFuel_cycle_stub fuel tn tm opts visited ti f r
      htm hnd hbase hft hvis htname hself hmem, rfl⟩

/-- C3 witness: the circular Person schema, instantiating both generators at
the cyclic bestFriend field. -/
theorem claim_C3_witness :
    (getField (recurseFields (some PersonT) schemaPerson (SelOptions.mk true) []) "bestFriend"
        = some (Sel.node (PersonT.fields.map (fun p => (p.1, Sel.leaf false))))
      ∧ selKeys (Sel.node (PersonT.fields.map (fun p => (p.1, Sel.leaf false))))
        = PersonT.fields.map Prod.fst)
    ∧ (getField (ctsFuel 6 "Person" (pass1 personDoc).1 (SelOptions.mk false) ["Person"])
          "bestFriend" = some ctsStub
      ∧ selKeys ctsStub = ["id", "name", "email", "title", "content"]) :=
  ⟨claim_C3.1 schemaPerson (SelOptions.mk true) [] PersonT "bestFriend"
      (TypeRef.named "Person") rfl rfl (by decide) rfl rfl rfl,
   claim_C3.2 5 "Person" (pass1 personDoc).1 (SelOptions.mk false) ["Person"]
      (TypeInfo.mk [("id", TypeRef.nonNull (TypeRef.named "ID")),
        ("name", TypeRef.nonNull (TypeRef.named "String")),
        ("bestFriend", TypeRef.named "Person"),
        ("friends", TypeRef.listOf (TypeRef.nonNull (TypeRef.named "Person")))] [] [] [])
      "bestFriend" (TypeRef.named "Person")
      rfl (by decide) (by decide) rfl rfl (by decide) (by decide) (by decide)⟩

/-- C7 counterexample: a null leaf at a schema-resolvable field makes the
serializer raise the Object.keys TypeError rather than producing no output
(null is a falsy value, and typeof null evaluates to the string "object" in
JavaScript); the second conjunct shows the same call without the entry
returns the empty string. -/
theorem claim_C7_counterexample :
    buildFieldSelections (JValue.vobj [("user", JValue.vnull)]) (some QueryT) schemaUser
      = Except.error nullKeysError
    ∧ buildFieldSelections (JValue.vobj []) (some QueryT) schemaUser = Except.ok "" := by
  constructor
  · rw [← bfsE_eq 1000 _ _ _ (by decide)]
    rfl
  · rw [← bfsE_eq 1000 _ _ _ (by decide)]
    rfl

/-- C7 amended: during serialization, boolean-false, string and other
non-true non-object leaves produce no output and never raise; a key not in
the current type's field map is silently skipped whatever its value — it
never raises and never appears — while __typename is still processed; but a
null leaf under a key that does resolve in the field map raises the
Object.keys TypeError; and an entry whose contribution is empty leaves the
serialized output of the remaining entries unchanged. -/
theorem claim_C7 :
    (∀ (fname : String) (v : JValue) (ty : GType) (schema : Schema),
      v.isTrue = false → v.typeofObject = false →
      bfsEntryItems fname v ty schema = Except.ok [])
    ∧ (∀ (fname : String) (v : JValue) (ty : GType) (schema : Schema),
      startsWithOn fname = false → fname ≠ "__typename" →
      List.lookup fname ty.fields = none →
      bfsEntryItems fname v ty schema = Except.ok [])
    ∧ (∀ (v : JValue) (ty : GType) (schema : Schema),
      bfsEntryItems "__typename" v ty schema
        = Except.ok (if v.isTrue then ["__typename"] else []))
    ∧ (∀ (fname : String) (ty : GType) (schema : Schema) (r : TypeRef),
      startsWithOn fname = false → fname ≠ "__typename" →
      List.lookup fname ty.fields = some r →
      bfsEntryItems fname JValue.vnull ty schema = Except.error nullKeysError)
    ∧ (∀ (fname : String) (v : JValue) (rest : List (String × JValue))
        (ty : GType) (schema : Schema),
      bfsEntryItems fname v ty schema = Except.ok [] →
      bfsEntries ((fname, v) :: rest) ty schema = bfsEntries rest ty schema) := by
  refine ⟨?_, ?_, ?_, ?_, ?_⟩
  · intro fname v ty schema ht hto
    cases v with
    | vnull => simp [JValue.typeofObject] at hto
    | vobj l => simp [JValue.typeofObject] at hto
    | vb b =>
      cases b
      · rw [bfsEntryItems.eq_def]
        split_ifs <;> first | rfl | (split <;> rfl) | simp_all [JValue.isTrue]
      · simp [JValue.isTrue] at ht
    | vstr s =>
      rw [bfsEntryItems.eq_def]
      split_ifs <;> first | rfl | (split <;> rfl) | simp_all [JValue.isTrue]
  · intro fname v ty schema h1 h2 hlookup
    rw [bfsEntryItems.eq_def]
    rw [if_neg (by simp [h1]), if_neg h2]
    simp only [hlookup]
  · intro v ty schema
    rw [bfsEntryItems.eq_def]
    rw [if_neg (by decide), if_pos rfl]
    cases h : v.isTrue <;> simp [h]
  · intro fname ty schema r h1 h2 hlookup
    rw [bfsEntryItems.eq_def]
    rw [if_neg (by simp [h1]), if_neg h2]
    simp only [hlookup]
  · intro fname v rest ty schema hitems
    rw [bfsEntries.eq_def]
    simp only [hitems]
    cases hr : bfsEntries rest ty schema with
    | error e => rfl
    | ok rs => rfl

/-- C7 witness: concrete instances of each conjunct on the example schema. -/
theorem claim_C7_witness :
    bfsEntryItems "user" (JValue.vb false) QueryT schemaUser = Except.ok []
    ∧ bfsEntryItems "bogus" (JValue.vb true) QueryT schemaUser = Except.ok []
    ∧ bfsEntryItems "__typename" (JValue.vb true) QueryT schemaUser
        = Except.ok (if (JValue.vb true).isTrue then ["__typename"] else [])
    ∧ bfsEntryItems "user" JValue.vnull QueryT schemaUser = Except.error nullKeysError
    ∧ bfsEntries [("bogus", JValue.vb true)] QueryT schemaUser
        = bfsEntries [] QueryT schemaUser :=
  ⟨claim_C7.1 "user" (JValue.vb false) QueryT schemaUser rfl rfl,
   claim_C7.2.1 "bogus" (JValue.vb true) QueryT schemaUser rfl (by decide) rfl,
   claim_C7.2.2.1 (JValue.vb true) QueryT schemaUser,
   claim_C7.2.2.2.1 "user" QueryT schemaUser (TypeRef.named "User") rfl (by decide) rfl,
   claim_C7.2.2.2.2 "bogus" (JValue.vb true) [] QueryT schemaUser
     (claim_C7.2.1 "bogus" (JValue.vb true) QueryT schemaUser rfl (by decide) rfl)⟩

/-- C8: for a schema-resolvable field whose selection value is a non-empty
object, the serializer emits `fieldName {}` when the recursive serialization
of the subtree is empty, and `fieldName { inner }` when it is non-empty —
in both the plain-object path (first conjunct) and the inline-fragment path
(second conjunct, where the body is the filtered join of the __typename
toggle, regular selections and fragment blocks). -/
theorem claim_C8 :
    (∀ (fname : String) (inner : List (String × JValue)) (ty : GType) (schema : Schema)
        (r : TypeRef) (s : String),
      startsWithOn fname = false → fname ≠ "__typename" →
      List.lookup fname ty.fields = some r →
      inner ≠ [] →
      inner.any (fun p => startsWithOn p.1) = false →
      buildFieldSelections (JValue.vobj inner) (schema.getType r.unwrapName) schema
        = Except.ok s →
      bfsEntryItems fname (JValue.vobj inner) ty schema
        = Except.ok [if s ≠ "" then fname ++ " \x7b " ++ s ++ " \x7d"
                     else fname ++ " \x7b\x7d"])
    ∧ (∀ (fname : String) (inner : List (String × JValue)) (ty : GType) (schema : Schema)
        (r : TypeRef) (regs frs : List String),
      startsWithOn fname = false → fname ≠ "__typename" →
      List.lookup fname ty.fields = some r →
      inner.any (fun p => startsWithOn p.1) = true →
      bfsRegular inner (schema.getType r.unwrapName) schema = Except.ok regs →
      bfsFragments inner schema = Except.ok frs →
      bfsEntryItems fname (JValue.vobj inner) ty schema
        = Except.ok [
            if String.intercalate " "
                ((((if (jlookup inner "__typename").elim false JValue.isTrue then
                    ["__typename"] else []) ++ regs) ++ frs).filter (fun x => x ≠ "")) ≠ "" then
              fname ++ " \x7b " ++ String.intercalate " "
                ((((if (jlookup inner "__typename").elim false JValue.isTrue then
                    ["__typename"] else []) ++ regs) ++ frs).filter (fun x => x ≠ "")) ++ " \x7d"
            else fname ++ " \x7b\x7d"]) := by
  constructor
  · intro fname inner ty schema r s h1 h2 hlookup hne hnofrag hbfs
    rw [bfsEntryItems.eq_def]
    rw [if_neg (by simp [h1]), if_neg h2]
    simp only [hlookup]
    have hempty : inner.isEmpty = false := by
      cases inner
      · exact absurd rfl hne
      · rfl
    rw [if_neg (by simp [hempty]), if_neg (by simp [hnofrag])]
    simp only [hbfs]
    rfl
  · intro fname inner ty schema r regs frs h1 h2 hlookup hfrag hregs hfrs
    rw [bfsEntryItems.eq_def]
    rw [if_neg (by simp [h1]), if_neg h2]
    simp only [hlookup]
    have hempty : inner.isEmpty = false := by
      cases inner with
      | nil => simp [List.any] at hfrag
      | cons a b => rfl
    rw [if_neg (by simp [hempty]), if_pos hfrag]
    simp only [hregs, hfrs]
    rfl

/-- C8 witness: an all-false subtree under user yields `user {}` rather than
omission, and a fragment-bearing subtree under product yields the braced
joined body. -/
theorem claim_C8_witness :
    bfsEntryItems "user" (JValue.vobj [("id", JValue.vb false)]) QueryT schemaUser
      = Except.ok [if ("" : String) ≠ "" then "user" ++ " \x7b " ++ "" ++ " \x7d"
                   else "user" ++ " \x7b\x7d"]
    ∧ bfsEntryItems "product"
        (JValue.vobj [("on_PhysicalProduct", JValue.vobj [("weight", JValue.vb true)])])
        QueryProductT schemaProduct
      = Except.ok [
          if String.intercalate " "
              ((((if (jlookup [("on_PhysicalProduct", JValue.vobj [("weight", JValue.vb true)])]
                  "__typename").elim false JValue.isTrue then
                  ["__typename"] else [])
                ++ ([] : List String))
                ++ ["... on PhysicalProduct \x7b weight \x7d"]).filter (fun x => x ≠ "")) ≠ "" then
            "product" ++ " \x7b " ++ String.intercalate " "
              ((((if (jlookup [("on_PhysicalProduct", JValue.vobj [("weight", JValue.vb true)])]
                  "__typename").elim false JValue.isTrue then
                  ["__typename"] else [])
                ++ ([] : List String))
                ++ ["... on PhysicalProduct \x7b weight \x7d"]).filter (fun x => x ≠ "")) ++ " \x7d"
          else "product" ++ " \x7b\x7d"] :=
  ⟨claim_C8.1 "user" [("id", JValue.vb false)] QueryT schemaUser
      (TypeRef.named "User") "" rfl (by decide) rfl (by exact List.cons_ne_nil _ _) rfl
      (by rw [← bfsE_eq 1000 _ _ _ (by decide)]; rfl),
   claim_C8.2 "product" [("on_PhysicalProduct", JValue.vobj [("weight", JValue.vb true)])]
      QueryProductT schemaProduct (TypeRef.named "Product") []
      ["... on PhysicalProduct \x7b weight \x7d"]
      rfl (by decide) rfl rfl
      (by rw [← bfsRegularE_eq schemaProduct (fun v g => bfsE 100000 v g schemaProduct) _
            (fun v g hv => bfsE_eq 100000 v g schemaProduct (le_trans hv (by decide))) _]
          rfl)
      (by rw [← bfsFragmentsE_eq schemaProduct (fun v g => bfsE 100000 v g schemaProduct) _
            (fun v g hv => bfsE_eq 100000 v g schemaProduct (le_trans hv (by decide)))]
          rfl)⟩

theorem nullFreeEntries_mem (entries : List (String × JValue)) (k : String) (v : JValue)
    (h : nullFreeEntries entries = true) (hm : (k, v) ∈ entries) :
    notNull v = true ∧ nullFreeVals v = true := by
  induction entries with
  | nil => cases hm
  | cons p rest ih =>
    obtain ⟨pk, pv⟩ := p
    rw [nullFreeEntries] at h
    rw [Bool.and_eq_true, Bool.and_eq_true] at h
    cases hm with
    | head =>
      refine ⟨h.1.1, ?_⟩
      cases v with
      | vobj inner => exact h.1.2
      | vnull => rfl
      | vb b => rfl
      | vstr s => rfl
    | tail _ hm2 => exact ih h.2 hm2

theorem bfsRegularE_cons (recF : JValue → Option GType → Except String String)
    (k : String) (v : JValue) (rest : List (String × JValue))
    (ft : Option GType) (schema : Schema) :
    bfsRegularE recF ((k, v) :: rest) ft schema =
      if startsWithOn k || k = "__typename" then
        bfsRegularE recF rest ft schema
      else
        match (match ft with
          | some f => if f.hasGetFields then f.fields.lookup k else none
          | none => none) with
        | none => bfsRegularE recF rest ft schema
        | some subRef =>
          if v.typeofObject then do
            let subSel ← recF v (schema.getType subRef.unwrapName)
            let r ← bfsRegularE recF rest ft schema
            if subSel ≠ "" then
              Except.ok ((k ++ " \x7b " ++ subSel ++ " \x7d") :: r)
            else Except.ok r
          else if v.isTrue then do
            let r ← bfsRegularE recF rest ft schema
            Except.ok (k :: r)
          else bfsRegularE recF rest ft schema := rfl

theorem bfsFragmentsE_cons (recF : JValue → Option GType → Except String String)
    (k : String) (v : JValue) (rest : List (String × JValue)) (schema : Schema) :
    bfsFragmentsE recF ((k, v) :: rest) schema =
      if startsWithOn k then
        match schema.getType (dropOn k) with
        | some typeObj => do
          let fragSel ← recF v (some typeObj)
          let r ← bfsFragmentsE recF rest schema
          if fragSel ≠ "" then
            Except.ok (("... on " ++ dropOn k ++ " \x7b " ++ fragSel ++ " \x7d") :: r)
          else Except.ok r
        | none => bfsFragmentsE recF rest schema
      else bfsFragmentsE recF rest schema := rfl

theorem bfsRegularE_ok (schema : Schema)
    (recF : JValue → Option GType → Except String String)
    (inner : List (String × JValue)) (ft : Option GType)
    (hnf : nullFreeEntries inner = true)
    (hrec : ∀ v gt, sizeOf v ≤ sizeOf inner → nullFreeVals v = true →
      ∃ out, recF v gt = Except.ok out) :
    ∃ outs, bfsRegularE recF inner ft schema = Except.ok outs := by
  induction inner with
  | nil => exact ⟨[], rfl⟩
  | cons p rest ih =>
    obtain ⟨k, v⟩ := p
    rw [nullFreeEntries, Bool.and_eq_true, Bool.and_eq_true] at hnf
    have hrest : ∀ w gt, sizeOf w ≤ sizeOf rest → nullFreeVals w = true →
        ∃ out, recF w gt = Except.ok out :=
      fun w gt hw hnw => hrec w gt (le_of_lt (lt_of_le_of_lt hw (sizeOf_rest_lt _ _ _))) hnw
    have hnfr : nullFreeEntries rest = true := hnf.2
    obtain ⟨os, hos⟩ := ih hnfr hrest
    have hnfv : nullFreeVals v = true := by
      cases v with
      | vobj i2 => exact hnf.1.2
      | vnull => rfl
      | vb b => rfl
      | vstr s => rfl
    rw [bfsRegularE_cons]
    split
    · exact ⟨os, hos⟩
    · split
      · exact ⟨os, hos⟩
      · next subRef _ =>
        split
        · obtain ⟨o, ho⟩ := hrec v (schema.getType subRef.unwrapName)
            (le_of_lt (sizeOf_head_val_lt _ _ _)) hnfv
          rw [ho, hos]
          by_cases ho2 : o = ""
          · simp only [ho2]
            exact ⟨os, rfl⟩
          · refine ⟨(k ++ " \x7b " ++ o ++ " \x7d") :: os, ?_⟩
            show (if o ≠ "" then Except.ok ((k ++ " \x7b " ++ o ++ " \x7d") :: os)
                  else Except.ok os) = _
            rw [if_pos ho2]
        · split
          · rw [hos]
            exact ⟨_, rfl⟩
          · exact ⟨os, hos⟩

theorem bfsFragmentsE_ok (schema : Schema)
    (recF : JValue → Option GType → Except String String)
    (inner : List (String × JValue))
    (hnf : nullFreeEntries inner = true)
    (hrec : ∀ v gt, sizeOf v ≤ sizeOf inner → nullFreeVals v = true →
      ∃ out, recF v gt = Except.ok out) :
    ∃ outs, bfsFragmentsE recF inner schema = Except.ok outs := by
  induction inner with
  | nil => exact ⟨[], rfl⟩
  | cons p rest ih =>
    obtain ⟨k, v⟩ := p
    rw [nullFreeEntries, Bool.and_eq_true, Bool.and_eq_true] at hnf
    have hrest : ∀ w gt, sizeOf w ≤ sizeOf rest → nullFreeVals w = true →
        ∃ out, recF w gt = Except.ok out :=
      fun w gt hw hnw => hrec w gt (le_of_lt (lt_of_le_of_lt hw (sizeOf_rest_lt _ _ _))) hnw
    obtain ⟨os, hos⟩ := ih hnf.2 hrest
    have hnfv : nullFreeVals v = true := by
      cases v with
      | vobj i2 => exact hnf.1.2
      | vnull => rfl
      | vb b => rfl
      | vstr s => rfl
    rw [bfsFragmentsE_cons]
    split
    · cases hgt : schema.getType (dropOn k) with
      | some typeObj =>
        obtain ⟨o, ho⟩ := hrec v (some typeObj)
          (le_of_lt (sizeOf_head_val_lt _ _ _)) hnfv
        simp only [hgt, ho, hos]
        by_cases ho2 : o = ""
        · simp only [ho2]
          exact ⟨os, rfl⟩
        · refine ⟨("... on " ++ dropOn k ++ " \x7b " ++ o ++ " \x7d") :: os, ?_⟩
          show (if o ≠ "" then
                  Except.ok (("... on " ++ dropOn k ++ " \x7b " ++ o ++ " \x7d") :: os)
                else Except.ok os) = _
          rw [if_pos ho2]
      | none =>
        simp only [hgt]
        exact ⟨os, hos⟩
    · exact ⟨os, hos⟩

theorem bfsEntryItemsE_ok (schema : Schema)
    (recF : JValue → Option GType → Except String String)
    (fieldName : String) (isSelected : JValue) (ty : GType)
    (hnn : notNull isSelected = true) (hnf : nullFreeVals isSelected = true)
    (hrec : ∀ v gt, sizeOf v ≤ sizeOf isSelected → nullFreeVals v = true →
      ∃ out, recF v gt = Except.ok out) :
    ∃ items, bfsEntryItemsE recF fieldName isSelected ty schema = Except.ok items := by
  rw [bfsEntryItemsE]
  split
  · exact ⟨[], rfl⟩
  · split
    · split
      · exact ⟨_, rfl⟩
      · exact ⟨[], rfl⟩
    · split
      · exact ⟨[], rfl⟩
      · next fieldRef _ =>
        cases isSelected with
        | vnull => cases hnn
        | vb b =>
          cases b with
          | true => exact ⟨[fieldName], rfl⟩
          | false => exact ⟨[], rfl⟩
        | vstr s => exact ⟨[], rfl⟩
        | vobj inner =>
          have hnfi : nullFreeEntries inner = true := hnf
          have hinner : sizeOf inner ≤ sizeOf (JValue.vobj inner) := by
            simp only [JValue.vobj.sizeOf_spec]
            omega
          have hreci : ∀ v gt, sizeOf v ≤ sizeOf inner → nullFreeVals v = true →
              ∃ out, recF v gt = Except.ok out :=
            fun v gt hv hnv => hrec v gt (le_trans hv hinner) hnv
          show ∃ items,
            (if inner.isEmpty then Except.ok [fieldName ++ " \x7b\x7d"]
             else if inner.any (fun p => startsWithOn p.1) then
               (let tn := if (jlookup inner "__typename").elim false JValue.isTrue then
                            ["__typename"] else []
                do
                  let regs ← bfsRegularE recF inner
                    (schema.getType fieldRef.unwrapName) schema
                  let frs ← bfsFragmentsE recF inner schema
                  let allSel := String.intercalate " "
                    (((tn ++ regs) ++ frs).filter (fun s => s ≠ ""))
                  Except.ok [if allSel ≠ "" then
                               fieldName ++ " \x7b " ++ allSel ++ " \x7d"
                             else fieldName ++ " \x7b\x7d"])
             else do
               let subSel ← recF (JValue.vobj inner)
                 (schema.getType fieldRef.unwrapName)
               Except.ok [if subSel ≠ "" then
                            fieldName ++ " \x7b " ++ subSel ++ " \x7d"
                          else fieldName ++ " \x7b\x7d"]) = Except.ok items
          by_cases he : inner.isEmpty
          · rw [if_pos he]
            exact ⟨_, rfl⟩
          · rw [if_neg he]
            by_cases ha : (inner.any fun p => startsWithOn p.1) = true
            · obtain ⟨regs, hregs⟩ :=
                bfsRegularE_ok schema recF inner (schema.getType fieldRef.unwrapName)
                  hnfi hreci
              obtain ⟨frs, hfrs⟩ := bfsFragmentsE_ok schema recF inner hnfi hreci
              rw [if_pos ha, hregs, hfrs]
              exact ⟨_, rfl⟩
            · obtain ⟨o, ho⟩ := hrec (JValue.vobj inner)
                (schema.getType fieldRef.unwrapName) (le_refl _) hnf
              rw [if_neg ha, ho]
              exact ⟨_, rfl⟩

theorem bfsEntriesE_cons (recF : JValue → Option GType → Except String String)
    (k : String) (v : JValue) (rest : List (String × JValue))
    (ty : GType) (schema : Schema) :
    bfsEntriesE recF ((k, v) :: rest) ty schema =
      (do
        let items ← bfsEntryItemsE recF k v ty schema
        let r ← bfsEntriesE recF rest ty schema
        Except.ok (items ++ r)) := rfl

theorem bfsEntriesE_ok (schema : Schema)
    (recF : JValue → Option GType → Except String String)
    (entries : List (String × JValue)) (ty : GType)
    (hnf : nullFreeEntries entries = true)
    (hrec : ∀ v gt, sizeOf v ≤ sizeOf entries → nullFreeVals v = true →
      ∃ out, recF v gt = Except.ok out) :
    ∃ outs, bfsEntriesE recF entries ty schema = Except.ok outs := by
  induction entries with
  | nil => exact ⟨[], rfl⟩
  | cons p rest ih =>
    obtain ⟨k, v⟩ := p
    rw [nullFreeEntries, Bool.and_eq_true, Bool.and_eq_true] at hnf
    have hrest : ∀ w gt, sizeOf w ≤ sizeOf rest → nullFreeVals w = true →
        ∃ out, recF w gt = Except.ok out :=
      fun w gt hw hnw => hrec w gt (le_of_lt (lt_of_le_of_lt hw (sizeOf_rest_lt _ _ _))) hnw
    obtain ⟨r, hr⟩ := ih hnf.2 hrest
    have hnfv : nullFreeVals v = true := by
      cases v with
      | vobj i2 => exact hnf.1.2
      | vnull => rfl
      | vb b => rfl
      | vstr s => rfl
    have hv : ∀ w gt, sizeOf w ≤ sizeOf v → nullFreeVals w = true →
        ∃ out, recF w gt = Except.ok out :=
      fun w gt hw hnw =>
        hrec w gt (le_of_lt (lt_of_le_of_lt hw (sizeOf_head_val_lt _ _ _))) hnw
    obtain ⟨items, hi⟩ := bfsEntryItemsE_ok schema recF k v ty hnf.1.1 hnfv hv
    rw [bfsEntriesE_cons, hi, hr]
    exact ⟨items ++ r, rfl⟩

theorem bfsE_ok (fuel : Nat) :
    ∀ (sel : JValue) (gt : Option GType) (schema : Schema),
      sizeOf sel ≤ fuel → nullFreeVals sel = true →
      ∃ out, bfsE fuel sel gt schema = Except.ok out := by
  induction fuel with
  | zero =>
    intro sel gt schema h _
    exact absurd h (by have := jvalue_sizeOf_pos sel; omega)
  | succ fuel ih =>
    intro sel gt schema h hnf
    cases sel with
    | vnull => exact ⟨"", rfl⟩
    | vb b => exact ⟨"", rfl⟩
    | vstr s => exact ⟨"", rfl⟩
    | vobj entries =>
      have hentries : sizeOf entries ≤ fuel := by
        simp only [JValue.vobj.sizeOf_spec] at h
        omega
      cases gt with
      | none => exact ⟨"", rfl⟩
      | some ty =>
        rw [bfsE]
        split
        · split
          · exact ⟨"", rfl⟩
          · obtain ⟨sels, hs⟩ := bfsEntriesE_ok schema
              (fun v g => bfsE fuel v g schema) entries ty hnf
              (fun v g hv hnv => ih v g schema (le_trans hv hentries) hnv)
            rw [hs]
            exact ⟨_, rfl⟩
        · exact ⟨"", rfl⟩

theorem bfs_total_nullFree (sel : JValue) (gt : Option GType) (schema : Schema)
    (hnf : nullFreeVals sel = true) :
    ∃ out, buildFieldSelections sel gt schema = Except.ok out := by
  obtain ⟨out, hout⟩ := bfsE_ok (sizeOf sel) sel gt schema (le_refl _) hnf
  exact ⟨out, by rw [← bfsE_eq (sizeOf sel) sel gt schema (le_refl _)]; exact hout⟩

/-- Claim C10 counterexample: the field-selection serializer is not total on
all selection values: a null nested at a resolvable field key makes
Object.keys(null) raise a TypeError instead of returning a string, refuting
the never-raises reading of the claim. -/
theorem claim_C10_counterexample :
    buildFieldSelections
      (JValue.vobj [("user", JValue.vobj [("name", JValue.vnull)])])
      (some QueryT) schemaUser = Except.error nullKeysError := by
  rw [← bfsE_eq 10000 _ _ _ (by decide)]
  rfl

/-- Claim C10 (amended): the serializer returns the empty string on every
degenerate boundary input — a null, boolean or string selection, an empty
selection object, a missing type, and a type without a field map — and it
returns some string on every null-free selection value; raising is confined
to selections containing a nested null at a resolvable key. -/
theorem claim_C10 :
    (∀ gt schema, buildFieldSelections JValue.vnull gt schema = Except.ok "") ∧
    (∀ b gt schema, buildFieldSelections (JValue.vb b) gt schema = Except.ok "") ∧
    (∀ s gt schema, buildFieldSelections (JValue.vstr s) gt schema = Except.ok "") ∧
    (∀ gt schema, buildFieldSelections (JValue.vobj []) gt schema = Except.ok "") ∧
    (∀ entries schema,
      buildFieldSelections (JValue.vobj entries) none schema = Except.ok "") ∧
    (∀ entries ty schema, ty.hasGetFields = false →
      buildFieldSelections (JValue.vobj entries) (some ty) schema = Except.ok "") ∧
    (∀ sel gt schema, nullFreeVals sel = true →
      ∃ out, buildFieldSelections sel gt schema = Except.ok out) := by
  refine ⟨?_, ?_, ?_, ?_, ?_, ?_, ?_⟩
  · intro gt schema
    rw [← bfsE_eq 1 _ gt schema (by decide)]
    rfl
  · intro b gt schema
    rw [← bfsE_eq 2 _ gt schema (by cases b <;> decide)]
    rfl
  · intro s gt schema
    rw [← bfsE_eq (sizeOf s + 2) _ gt schema
      (by simp only [JValue.vstr.sizeOf_spec]; omega)]
    rfl
  · intro gt schema
    cases gt with
    | none =>
      rw [← bfsE_eq 10 _ none schema (by decide)]
      rfl
    | some ty =>
      rw [← bfsE_eq 10 _ (some ty) schema (by decide)]
      show (if ty.hasGetFields then Except.ok "" else Except.ok "") = Except.ok ""
      rw [ite_self]
  · intro entries schema
    rw [buildFieldSelections.eq_def]
  · intro entries ty schema h
    rw [buildFieldSelections.eq_def]
    simp [h]
  · exact fun sel gt schema hnf => bfs_total_nullFree sel gt schema hnf

/-- Claim C10 witness: the amended theorem instantiated at an enum-kind type
with no field map and at a null-free selection over the user schema. -/
theorem claim_C10_witness :
    buildFieldSelections (JValue.vobj [("x", JValue.vb true)])
      (some (GType.mk "E" TKind.enum [] [])) schemaUser = Except.ok "" ∧
    (∃ out, buildFieldSelections
      (JValue.vobj [("user", JValue.vobj [("name", JValue.vb true)])])
      (some QueryT) schemaUser = Except.ok out) :=
  ⟨claim_C10.2.2.2.2.2.1 _ _ _ rfl, claim_C10.2.2.2.2.2.2 _ _ _ rfl⟩

theorem except_ok_bind {α β : Type} (a : α) (f : α → Except String β) :
    (do
      let x ← Except.ok a
      f x) = f a := rfl

/-- Claim C6 counterexample: with a truthy schema string, an object
selection, the default (query) operation and a present query root — so none
of the four listed conditions holds — buildQuery still raises, on a null
stored at a resolvable field key; and on an unparsable schema combined with
an unsupported operation type the parse error is raised, not the
operation-type error, so the operation-type shape check does not precede
schema parsing. -/
theorem claim_C6_counterexample :
    isTruthyString (JValue.vstr "SDL_USER") = true ∧
    isObj (JValue.vobj [("user", JValue.vnull)]) = true ∧
    effectiveOperationType defaultBQOptions = "query" ∧
    buildSchemaStub "SDL_USER" = Except.ok schemaUser ∧
    schemaUser.getQueryType = some QueryT ∧
    buildQuery buildSchemaStub (JValue.vstr "SDL_USER")
      (JValue.vobj [("user", JValue.vnull)]) defaultBQOptions
      = Except.error nullKeysError ∧
    buildQuery buildSchemaStub (JValue.vstr "BAD")
      (JValue.vobj [("x", JValue.vb true)])
      (BuildQueryOptions.mk (some "bogus") none)
      = Except.error "Syntax Error: Unexpected Name" := by
  refine ⟨rfl, rfl, rfl, rfl, rfl, ?_, ?_⟩
  · rw [← buildQueryE_eq 10000 _ _ _ _ (by decide)]
    rfl
  · rw [← buildQueryE_eq 10000 _ _ _ _ (by decide)]
    rfl

/-- Claim C6 (amended): the two input-shape guards (truthy string schema,
object selection) fire before the schema parser is consulted — the errors
are independent of the parser; a parse error then propagates before the
operation-type check; an effective operation type outside query, mutation
and subscription raises the unsupported-operation error; each of the three
supported operations raises its missing-root error when its root type is
absent; and for each of the three, when the schema parses, that operation's
root resolves and the selection is null-free, buildQuery returns a
string. -/
theorem claim_C6 :
    (∀ (F : String → Except String Schema) sdl sel opts,
      isTruthyString sdl = false →
      buildQuery F sdl sel opts
        = Except.error "Schema must be a valid SDL string") ∧
    (∀ (F : String → Except String Schema) s sel opts,
      s ≠ "" → isObj sel = false →
      buildQuery F (JValue.vstr s) sel opts
        = Except.error "Selection object must be a valid object") ∧
    (∀ (F : String → Except String Schema) s entries opts e,
      s ≠ "" → F s = Except.error e →
      buildQuery F (JValue.vstr s) (JValue.vobj entries) opts
        = Except.error e) ∧
    (∀ (F : String → Except String Schema) s entries opts schema,
      s ≠ "" → F s = Except.ok schema →
      effectiveOperationType opts ≠ "query" →
      effectiveOperationType opts ≠ "mutation" →
      effectiveOperationType opts ≠ "subscription" →
      buildQuery F (JValue.vstr s) (JValue.vobj entries) opts
        = Except.error
            ("Unsupported operation type: " ++ effectiveOperationType opts)) ∧
    (∀ (F : String → Except String Schema) s entries opts schema,
      s ≠ "" → F s = Except.ok schema →
      effectiveOperationType opts = "query" →
      schema.getQueryType = none →
      buildQuery F (JValue.vstr s) (JValue.vobj entries) opts
        = Except.error "No query type found in schema.") ∧
    (∀ (F : String → Except String Schema) s entries opts schema,
      s ≠ "" → F s = Except.ok schema →
      effectiveOperationType opts = "mutation" →
      schema.getMutationType = none →
      buildQuery F (JValue.vstr s) (JValue.vobj entries) opts
        = Except.error "No mutation type found in schema.") ∧
    (∀ (F : String → Except String Schema) s entries opts schema,
      s ≠ "" → F s = Except.ok schema →
      effectiveOperationType opts = "subscription" →
      schema.getSubscriptionType = none →
      buildQuery F (JValue.vstr s) (JValue.vobj entries) opts
        = Except.error "No subscription type found in schema.") ∧
    (∀ (F : String → Except String Schema) s entries opts schema rootType,
      s ≠ "" → F s = Except.ok schema →
      effectiveOperationType opts = "query" →
      schema.getQueryType = some rootType →
      nullFreeVals (JValue.vobj entries) = true →
      ∃ out, buildQuery F (JValue.vstr s) (JValue.vobj entries) opts
        = Except.ok out) ∧
    (∀ (F : String → Except String Schema) s entries opts schema rootType,
      s ≠ "" → F s = Except.ok schema →
      effectiveOperationType opts = "mutation" →
      schema.getMutationType = some rootType →
      nullFreeVals (JValue.vobj entries) = true →
      ∃ out, buildQuery F (JValue.vstr s) (JValue.vobj entries) opts
        = Except.ok out) ∧
    (∀ (F : String → Except String Schema) s entries opts schema rootType,
      s ≠ "" → F s = Except.ok schema →
      effectiveOperationType opts = "subscription" →
      schema.getSubscriptionType = some rootType →
      nullFreeVals (JValue.vobj entries) = true →
      ∃ out, buildQuery F (JValue.vstr s) (JValue.vobj entries) opts
        = Except.ok out) := by
  refine ⟨?_, ?_, ?_, ?_, ?_, ?_, ?_, ?_, ?_, ?_⟩
  · intro F sdl sel opts hts
    cases sdl with
    | vnull => rw [buildQuery]
    | vb b => rw [buildQuery]
    | vobj l => rw [buildQuery]
    | vstr s =>
      have hs : s = "" := by
        by_contra hne
        simp [isTruthyString, hne] at hts
      subst hs
      cases sel <;> rw [buildQuery] <;> try rfl
      all_goals intro _ hx
      all_goals cases hx
  · intro F s sel opts hs hobj
    cases sel with
    | vnull =>
      rw [buildQuery, if_neg hs]
      all_goals intro _ hx
      all_goals cases hx
    | vb b =>
      rw [buildQuery, if_neg hs]
      all_goals intro _ hx
      all_goals cases hx
    | vstr s2 =>
      rw [buildQuery, if_neg hs]
      all_goals intro _ hx
      all_goals cases hx
    | vobj l => simp [isObj] at hobj
  · intro F s entries opts e hs hF
    rw [buildQuery, if_neg hs, hF]
    rfl
  · intro F s entries opts schema hs hF ht1 ht2 ht3
    rw [buildQuery, if_neg hs, hF]
    simp only [if_neg ht1, if_neg ht2, if_neg ht3]
    rfl
  · intro F s entries opts schema hs hF hop hq
    rw [buildQuery, if_neg hs, hF, except_ok_bind]
    rw [Schema.getQueryType] at hq
    simp only [hop, reduceIte, hq]
    rfl
  · intro F s entries opts schema hs hF hop hq
    rw [buildQuery, if_neg hs, hF, except_ok_bind]
    rw [Schema.getMutationType] at hq
    simp only [hop, reduceIte]
    rw [if_neg (show ¬("mutation" : String) = "query" by decide)]
    simp only [hq]
    rfl
  · intro F s entries opts schema hs hF hop hq
    rw [buildQuery, if_neg hs, hF, except_ok_bind]
    rw [Schema.getSubscriptionType] at hq
    simp only [hop, reduceIte]
    rw [if_neg (show ¬("subscription" : String) = "query" by decide),
        if_neg (show ¬("subscription" : String) = "mutation" by decide)]
    simp only [hq]
    rfl
  · intro F s entries opts schema rootType hs hF hop hq hnf
    obtain ⟨out, hout⟩ :=
      bfs_total_nullFree (JValue.vobj entries) (some rootType) schema hnf
    rw [Schema.getQueryType] at hq
    rw [buildQuery, if_neg hs, hF, except_ok_bind]
    simp only [hop, reduceIte, hq, hout, except_ok_bind]
    by_cases ho : out = ""
    · subst ho
      exact ⟨_, rfl⟩
    · rw [if_neg ho]
      exact ⟨_, rfl⟩
  · intro F s entries opts schema rootType hs hF hop hq hnf
    obtain ⟨out, hout⟩ :=
      bfs_total_nullFree (JValue.vobj entries) (some rootType) schema hnf
    rw [Schema.getMutationType] at hq
    rw [buildQuery, if_neg hs, hF, except_ok_bind]
    simp only [hop, reduceIte]
    rw [if_neg (show ¬("mutation" : String) = "query" by decide)]
    simp only [hq, hout, except_ok_bind]
    by_cases ho : out = ""
    · subst ho
      exact ⟨_, rfl⟩
    · rw [if_neg ho]
      exact ⟨_, rfl⟩
  · intro F s entries opts schema rootType hs hF hop hq hnf
    obtain ⟨out, hout⟩ :=
      bfs_total_nullFree (JValue.vobj entries) (some rootType) schema hnf
    rw [Schema.getSubscriptionType] at hq
    rw [buildQuery, if_neg hs, hF, except_ok_bind]
    simp only [hop, reduceIte]
    rw [if_neg (show ¬("subscription" : String) = "query" by decide),
        if_neg (show ¬("subscription" : String) = "mutation" by decide)]
    simp only [hq, hout, except_ok_bind]
    by_cases ho : out = ""
    · subst ho
      exact ⟨_, rfl⟩
    · rw [if_neg ho]
      exact ⟨_, rfl⟩

/-- Claim C6 witness: the amended theorem instantiated on the stub parser —
null schema value, null selection, unparsable schema text, a bogus
operation type, schemas missing the query, mutation and subscription roots,
and null-free success cases for all three operations. -/
theorem claim_C6_witness :
    buildQuery buildSchemaStub JValue.vnull (JValue.vobj []) defaultBQOptions
      = Except.error "Schema must be a valid SDL string" ∧
    buildQuery buildSchemaStub (JValue.vstr "SDL_USER") JValue.vnull
      defaultBQOptions
      = Except.error "Selection object must be a valid object" ∧
    buildQuery buildSchemaStub (JValue.vstr "BAD") (JValue.vobj [])
      defaultBQOptions = Except.error "Syntax Error: Unexpected Name" ∧
    buildQuery buildSchemaStub (JValue.vstr "SDL_USER") (JValue.vobj [])
      (BuildQueryOptions.mk (some "weird") none)
      = Except.error
          ("Unsupported operation type: "
            ++ effectiveOperationType (BuildQueryOptions.mk (some "weird") none)) ∧
    buildQuery (fun _ => Except.ok (Schema.mk [UserT] none none none))
      (JValue.vstr "x") (JValue.vobj []) defaultBQOptions
      = Except.error "No query type found in schema." ∧
    buildQuery buildSchemaStub (JValue.vstr "SDL_USER") (JValue.vobj [])
      (BuildQueryOptions.mk (some "mutation") none)
      = Except.error "No mutation type found in schema." ∧
    buildQuery buildSchemaStub (JValue.vstr "SDL_USER") (JValue.vobj [])
      (BuildQueryOptions.mk (some "subscription") none)
      = Except.error "No subscription type found in schema." ∧
    (∃ out, buildQuery buildSchemaStub (JValue.vstr "SDL_USER")
      (JValue.vobj [("user", JValue.vb true)]) defaultBQOptions
      = Except.ok out) ∧
    (∃ out, buildQuery buildSchemaStub (JValue.vstr "SDL_MUTATION")
      (JValue.vobj [("createUser", JValue.vb true)])
      (BuildQueryOptions.mk (some "mutation") none)
      = Except.ok out) ∧
    (∃ out, buildQuery
      (fun _ => Except.ok
        (Schema.mk [QueryT, UserT] (some "Query") none (some "Query")))
      (JValue.vstr "x") (JValue.vobj [("user", JValue.vb true)])
      (BuildQueryOptions.mk (some "subscription") none)
      = Except.ok out) :=
  ⟨claim_C6.1 buildSchemaStub JValue.vnull _ _ rfl,
   claim_C6.2.1 buildSchemaStub "SDL_USER" JValue.vnull _ (by decide) rfl,
   claim_C6.2.2.1 buildSchemaStub "BAD" [] _ _ (by decide) rfl,
   claim_C6.2.2.2.1 buildSchemaStub "SDL_USER" [] _ schemaUser (by decide) rfl
     (by decide) (by decide) (by decide),
   claim_C6.2.2.2.2.1 (fun _ => Except.ok (Schema.mk [UserT] none none none))
     "x" [] defaultBQOptions (Schema.mk [UserT] none none none)
     (by decide) rfl rfl rfl,
   claim_C6.2.2.2.2.2.1 buildSchemaStub "SDL_USER" []
     (BuildQueryOptions.mk (some "mutation") none) schemaUser
     (by decide) rfl rfl rfl,
   claim_C6.2.2.2.2.2.2.1 buildSchemaStub "SDL_USER" []
     (BuildQueryOptions.mk (some "subscription") none) schemaUser
     (by decide) rfl rfl rfl,
   claim_C6.2.2.2.2.2.2.2.1 buildSchemaStub "SDL_USER"
     [("user", JValue.vb true)] defaultBQOptions schemaUser QueryT
     (by decide) rfl rfl rfl rfl,
   claim_C6.2.2.2.2.2.2.2.2.1 buildSchemaStub "SDL_MUTATION"
     [("createUser", JValue.vb true)]
     (BuildQueryOptions.mk (some "mutation") none) schemaMutation MutationT
     (by decide) rfl rfl rfl rfl,
   claim_C6.2.2.2.2.2.2.2.2.2
     (fun _ => Except.ok
       (Schema.mk [QueryT, UserT] (some "Query") none (some "Query")))
     "x" [("user", JValue.vb true)]
     (BuildQueryOptions.mk (some "subscription") none)
     (Schema.mk [QueryT, UserT] (some "Query") none (some "Query")) QueryT
     (by decide) rfl rfl rfl rfl⟩

theorem allFalseList_append (a b : List (String × Sel)) :
    allFalseList (a ++ b) = (allFalseList a && allFalseList b) := by
  induction a with
  | nil => simp [allFalseList]
  | cons p rest ih =>
    obtain ⟨k, v⟩ := p
    rw [List.cons_append, allFalseList, allFalseList, ih, Bool.and_assoc]

theorem allFalseList_replace (m : List (String × Sel)) (k : String) (v : Sel)
    (hm : allFalseList m = true) (hv : allFalse v = true) :
    allFalseList (List.map (fun p => if p.1 == k then (k, v) else p) m) = true := by
  induction m with
  | nil => rfl
  | cons p rest ih =>
    obtain ⟨pk, pv⟩ := p
    rw [allFalseList, Bool.and_eq_true] at hm
    rw [List.map_cons]
    by_cases hk : (pk == k) = true
    · simp only [hk, if_pos]
      rw [allFalseList, hv, ih hm.2]
      rfl
    · simp only [hk]
      rw [if_neg (by simp [hk]), allFalseList, hm.1, ih hm.2]
      rfl

theorem allFalse_addKey (m : List (String × Sel)) (k : String) (v : Sel)
    (hm : allFalseList m = true) (hv : allFalse v = true) :
    allFalseList (addKey m k v) = true := by
  rw [addKey]
  split
  · exact allFalseList_replace m k v hm hv
  · rw [allFalseList_append, hm, allFalseList, hv]
    rfl

theorem ctsFieldValue_allFalse (recF : String → List String → Sel)
    (tr : TypeRef) (tm : TypeMap) (visited : List String)
    (hrec : ∀ tn vis, allFalse (recF tn vis) = true) :
    allFalse (ctsFieldValue recF tr tm visited) = true := by
  rw [ctsFieldValue]
  split
  · rfl
  · split
    · exact hrec _ _
    · rfl

theorem ctsFields_allFalse (recF : String → List String → Sel)
    (fields : List (String × TypeRef)) (tm : TypeMap) (visited : List String)
    (hrec : ∀ tn vis, allFalse (recF tn vis) = true) :
    ∀ acc, allFalseList acc = true →
      allFalseList (ctsFields recF fields tm visited acc) = true := by
  induction fields with
  | nil => intro acc hacc; exact hacc
  | cons p rest ih =>
    intro acc hacc
    obtain ⟨fname, tr⟩ := p
    rw [ctsFields]
    exact ih _ (allFalse_addKey acc fname _ hacc
      (ctsFieldValue_allFalse recF tr tm visited hrec))

theorem ctsUnions_allFalse (recF : String → List String → Sel)
    (members : List String)
    (hrec : ∀ tn vis, allFalse (recF tn vis) = true) :
    ∀ visited acc, allFalseList acc = true →
      allFalseList (ctsUnions recF members visited acc).1 = true := by
  induction members with
  | nil => intro visited acc hacc; exact hacc
  | cons pt rest ih =>
    intro visited acc hacc
    rw [ctsUnions]
    exact ih _ _ (allFalse_addKey acc ("on_" ++ pt) _ hacc (hrec _ _))

theorem ctsFuel_allFalse (fuel : Nat) :
    ∀ (typeName : String) (tm : TypeMap) (opts : SelOptions)
      (visited : List String),
      allFalse (ctsFuel fuel typeName tm opts visited) = true := by
  induction fuel with
  | zero => intro typeName tm opts visited; rfl
  | succ fuel ih =>
    intro typeName tm opts visited
    rw [ctsFuel]
    cases hlk : List.lookup typeName tm with
    | none => rfl
    | some ti =>
      show allFalseList
        ((ctsUnions (fun tn v => ctsFuel fuel tn tm opts v) ti.possibleTypes visited
          (if ti.interfaces.isEmpty then
            ctsFields (fun tn v => ctsFuel fuel tn tm opts v) ti.fields tm visited
              (if opts.includeTypename then [("__typename", Sel.leaf false)] else [])
           else
            addKey (ctsFields (fun tn v => ctsFuel fuel tn tm opts v) ti.fields tm
              visited
              (if opts.includeTypename then [("__typename", Sel.leaf false)] else []))
              ("on_" ++ typeName) Sel.selfRef)).1) = true
      have hrec : ∀ tn vis, allFalse (ctsFuel fuel tn tm opts vis) = true :=
        fun tn vis => ih tn tm opts vis
      have hbase : allFalseList
          (if opts.includeTypename then [("__typename", Sel.leaf false)] else [])
            = true := by
        cases opts.includeTypename <;> rfl
      have hfields := ctsFields_allFalse (fun tn v => ctsFuel fuel tn tm opts v)
        ti.fields tm visited hrec _ hbase
      have hifaces : allFalseList
          (if ti.interfaces.isEmpty then
            ctsFields (fun tn v => ctsFuel fuel tn tm opts v) ti.fields tm visited
              (if opts.includeTypename then [("__typename", Sel.leaf false)] else [])
           else
            addKey (ctsFields (fun tn v => ctsFuel fuel tn tm opts v) ti.fields tm
              visited
              (if opts.includeTypename then [("__typename", Sel.leaf false)] else []))
              ("on_" ++ typeName) Sel.selfRef) = true := by
        cases ti.interfaces.isEmpty
        · exact allFalse_addKey _ _ _ hfields rfl
        · exact hfields
      exact ctsUnions_allFalse (fun tn v => ctsFuel fuel tn tm opts v)
        ti.possibleTypes hrec visited _ hifaces

theorem cSOTS_first_run_shape (fuel : Nat)
    (parseF : String → Except String AstDoc) (sdl : String) (opts : SelOptions) :
    (∃ e, createSelectionObjectTS fuel parseF sdl opts []
        = (Except.error e, [])) ∨
    (∃ tm qtn, createSelectionObjectTS fuel parseF sdl opts []
        = (Except.ok (ctsFuel fuel qtn tm opts []), [(sdl, (tm, qtn))])) := by
  rw [createSelectionObjectTS]
  by_cases hsdl : sdl = ""
  · rw [if_pos hsdl]
    exact Or.inl ⟨_, rfl⟩
  · rw [if_neg hsdl]
    show (∃ e,
        (match parseF sdl with
         | Except.error m => (Except.error (CsoErr.syntaxError m), ([] : SchemaCache))
         | Except.ok doc =>
           if ! doc.any isTypeDefinition then
             (Except.error CsoErr.noTypeDefs, ([] : SchemaCache))
           else
             match pass2 doc (pass1 doc).1 with
             | Except.error e => (Except.error e, ([] : SchemaCache))
             | Except.ok tm2 =>
               match (pass1 doc).2 with
               | none => (Except.error CsoErr.noQueryType, ([] : SchemaCache))
               | some qtn =>
                 if (List.lookup qtn tm2).isNone then
                   (Except.error (CsoErr.queryTypeNotFound qtn), ([] : SchemaCache))
                 else
                   (Except.ok (ctsFuel fuel qtn tm2 opts []), [(sdl, (tm2, qtn))]))
          = (Except.error e, [])) ∨
      (∃ tm qtn,
        (match parseF sdl with
         | Except.error m => (Except.error (CsoErr.syntaxError m), ([] : SchemaCache))
         | Except.ok doc =>
           if ! doc.any isTypeDefinition then
             (Except.error CsoErr.noTypeDefs, ([] : SchemaCache))
           else
             match pass2 doc (pass1 doc).1 with
             | Except.error e => (Except.error e, ([] : SchemaCache))
             | Except.ok tm2 =>
               match (pass1 doc).2 with
               | none => (Except.error CsoErr.noQueryType, ([] : SchemaCache))
               | some qtn =>
                 if (List.lookup qtn tm2).isNone then
                   (Except.error (CsoErr.queryTypeNotFound qtn), ([] : SchemaCache))
                 else
                   (Except.ok (ctsFuel fuel qtn tm2 opts []), [(sdl, (tm2, qtn))]))
          = (Except.ok (ctsFuel fuel qtn tm opts []), [(sdl, (tm, qtn))]))
    split
    · exact Or.inl ⟨_, rfl⟩
    · split
      · exact Or.inl ⟨_, rfl⟩
      · split
        · exact Or.inl ⟨_, rfl⟩
        · next tm2 _ =>
          split
          · exact Or.inl ⟨_, rfl⟩
          · next qtn _ =>
            split
            · exact Or.inl ⟨_, rfl⟩
            · exact Or.inr ⟨tm2, qtn, rfl⟩

/-- Claim C9: for any parser, schema text and options, a second generator
run — served from the schema cache the first run produced — returns exactly
the first run's result, and every tree the generator returns has all its
boolean leaves false. -/
theorem claim_C9 (fuel : Nat) (parseF : String → Except String AstDoc)
    (sdl : String) (opts : SelOptions) :
    ((createSelectionObjectTS fuel parseF sdl opts
        ((createSelectionObjectTS fuel parseF sdl opts []).2)).1
      = (createSelectionObjectTS fuel parseF sdl opts []).1) ∧
    (∀ tree, (createSelectionObjectTS fuel parseF sdl opts []).1
        = Except.ok tree → allFalse tree = true) := by
  rcases cSOTS_first_run_shape fuel parseF sdl opts with ⟨e, h1⟩ | ⟨tm, qtn, h1⟩
  · constructor
    · rw [h1]
      show (createSelectionObjectTS fuel parseF sdl opts []).1 = _
      rw [h1]
    · intro tree htree
      rw [h1] at htree
      cases htree
  · have hsdl : sdl ≠ "" := by
      intro hq
      subst hq
      rw [createSelectionObjectTS] at h1
      simp at h1
    constructor
    · rw [h1]
      show (createSelectionObjectTS fuel parseF sdl opts [(sdl, (tm, qtn))]).1
        = Except.ok (ctsFuel fuel qtn tm opts [])
      rw [createSelectionObjectTS, if_neg hsdl]
      simp [List.lookup]
    · intro tree htree
      rw [h1] at htree
      have : ctsFuel fuel qtn tm opts [] = tree := by
        injection htree
      subst this
      exact ctsFuel_allFalse fuel qtn tm opts []

/-- Claim C9 witness: both runs on the circular Person schema under the
__typename option agree, and the returned tree is all-false. -/
theorem claim_C9_witness :
    ((createSelectionObjectTS 10 parseStubTS "SDL_PERSON" (SelOptions.mk true)
        ((createSelectionObjectTS 10 parseStubTS "SDL_PERSON"
          (SelOptions.mk true) []).2)).1
      = (createSelectionObjectTS 10 parseStubTS "SDL_PERSON"
          (SelOptions.mk true) []).1) ∧
    (∃ tree, (createSelectionObjectTS 10 parseStubTS "SDL_PERSON"
        (SelOptions.mk true) []).1 = Except.ok tree ∧ allFalse tree = true) :=
  ⟨(claim_C9 10 parseStubTS "SDL_PERSON" (SelOptions.mk true)).1,
   ⟨_, rfl,
    (claim_C9 10 parseStubTS "SDL_PERSON" (SelOptions.mk true)).2 _ rfl⟩⟩
